import Mathlib

/-
Verification development for the two-phase commit support code in
src/backend/access/transam/twophase.c (Greenplum fork of PostgreSQL).

The C code is shallowly embedded: the shared-memory registry
(TwoPhaseStateData) becomes an explicit state record threaded through the
operations; ereport(ERROR) paths become error results returned together
with the (unchanged) state; machine integers become Nat with explicit
`% 2^32` where 32-bit wraparound matters.
-/

set_option maxRecDepth 10000

/-! ### Registry data model (GlobalTransactionData / TwoPhaseStateData) -/

/-- Model of GlobalTransactionData (twophase.c:115).  `databaseId`, `xid`
and the lock state live in the dummy PGPROC/PGXACT in the C code
(proc->databaseId, pgxact->xid); they are folded into the entry here.
`locking_backend = none` models InvalidBackendId.  `prepared_at` holds the
64-bit TimestampTz bit pattern. -/
structure GXactEnt where
  gid : String
  owner : Nat
  databaseId : Nat
  prepared_at : Nat
  xid : Nat
  valid : Bool
  locking_backend : Option Nat
  prepare_begin_lsn : Nat
  deriving DecidableEq, Repr

/-- Model of TwoPhaseStateData (twophase.c:133).  `prepXacts` is the active
array in index order; the free list of GlobalTransactionData structs is
represented by the number of free entries (`freeCount`), which is what the
`freeGXacts == NULL` test observes.  `maxPreparedXacts` models the
max_prepared_xacts GUC. -/
structure TPState where
  maxPreparedXacts : Nat
  freeCount : Nat
  prepXacts : List GXactEnt
  deriving DecidableEq, Repr

/-- Registry state right after TwoPhaseShmemInit: all entries on the free
list, active array empty (twophase.c:283). -/
def emptyTPState (cap : Nat) : TPState :=
  { maxPreparedXacts := cap, freeCount := cap, prepXacts := [] }

/-- Error conditions raised via ereport(ERROR) in the modelled paths. -/
inductive TPErr where
  | identifierTooLong    -- twophase.c:432, ERRCODE_INVALID_PARAMETER_VALUE
  | featureDisabled      -- twophase.c:439, prepared transactions are disabled
  | duplicateIdentifier  -- twophase.c:460, ERRCODE_DUPLICATE_OBJECT
  | capacityExhausted    -- twophase.c:468, maximum number reached
  | busy                 -- twophase.c:622, prepared transaction is busy
  | permissionDenied     -- twophase.c:630, ERRCODE_INSUFFICIENT_PRIVILEGE
  | databaseMismatch     -- twophase.c:643, belongs to another database
  | notFound             -- twophase.c:663, ERRCODE_UNDEFINED_OBJECT
  deriving DecidableEq, Repr

/-- GIDSIZE (twophase.c:113). -/
def GIDSIZE : Nat := 200

/-- The duplicate-GID scan of MarkAsPreparing (twophase.c:455): it runs over
every entry of the active array, valid or not. -/
def hasGid (l : List GXactEnt) (g : String) : Bool :=
  l.any (fun e => e.gid == g)

/-- MarkAsPreparing (twophase.c:412).  Checks, in source order: gid length
(idlen >= GIDSIZE), max_prepared_xacts == 0, duplicate GID among all active
entries, empty free list; then takes a free entry, fills it in with
valid = false and locking_backend = MyBackendId, and appends it at index
numPrepXacts of the active array.  All ereport(ERROR) exits happen before
any mutation, so the state is returned unchanged alongside the error. -/
def markAsPreparing (st : TPState) (xid : Nat) (gid : String)
    (prepared_at : Nat) (owner : Nat) (databaseid : Nat) (xlogrecptr : Nat)
    (myBackendId : Nat) : Except TPErr GXactEnt × TPState :=
  if GIDSIZE ≤ gid.length then
    (.error .identifierTooLong, st)
  else if st.maxPreparedXacts = 0 then
    (.error .featureDisabled, st)
  else if hasGid st.prepXacts gid then
    (.error .duplicateIdentifier, st)
  else if st.freeCount = 0 then
    (.error .capacityExhausted, st)
  else
    let e : GXactEnt :=
      { gid := gid, owner := owner, databaseId := databaseid,
        prepared_at := prepared_at, xid := xid, valid := false,
        locking_backend := some myBackendId, prepare_begin_lsn := xlogrecptr }
    (.ok e, { st with freeCount := st.freeCount - 1,
                      prepXacts := st.prepXacts ++ [e] })

/-- Apply `f` to the element at index `i`, leaving everything else alone. -/
def modifyAt {α : Type} : List α → Nat → (α → α) → List α
  | [], _, _ => []
  | e :: r, 0, f => f e :: r
  | e :: r, n + 1, f => e :: modifyAt r n f

/-- MarkAsPrepared (twophase.c:566) on the entry at index `i`: sets
valid = true.  (The accompanying ProcArrayAdd publishes the shadow
process-visible handle; the registry only records the flag.) -/
def markAsPrepared (st : TPState) (i : Nat) : TPState :=
  { st with prepXacts := modifyAt st.prepXacts i (fun e => { e with valid := true }) }

/-- PostPrepare_Twophase (twophase.c:393): the preparing session releases
its lock on the entry at index `i`. -/
def postPrepareTwophase (st : TPState) (i : Nat) : TPState :=
  { st with prepXacts := modifyAt st.prepXacts i (fun e => { e with locking_backend := none }) }

/-- The scan loop of LockGXact (twophase.c:607-658) over the active array:
entries that are not valid or whose gid differs are skipped; on the first
match the busy, permission and cross-database checks run in that order,
and on success the entry is locked for `myBackendId`.  Returns the updated
array, or `none` when no valid entry matches. -/
def lockScan (l : List GXactEnt) (gid : String) (user : Nat) (isSuper : Bool)
    (myDatabaseId : Nat) (roleExecute : Bool) (myBackendId : Nat) :
    Except TPErr (Option (List GXactEnt)) :=
  match l with
  | [] => .ok none
  | e :: rest =>
    if e.valid && e.gid == gid then
      if e.locking_backend.isSome then .error .busy
      else if user ≠ e.owner && !isSuper then .error .permissionDenied
      else if myDatabaseId ≠ e.databaseId && !roleExecute then .error .databaseMismatch
      else .ok (some ({ e with locking_backend := some myBackendId } :: rest))
    else
      match lockScan rest gid user isSuper myDatabaseId roleExecute myBackendId with
      | .error err => .error err
      | .ok none => .ok none
      | .ok (some rest') => .ok (some (e :: rest'))

/-- LockGXact (twophase.c:592).  On `.ok (some st')` the matching entry has
been locked for the caller; `.ok none` is the "no such transaction, caller
tolerated it" result (raiseErrorIfNotFound = false).  Error exits leave
the registry unchanged (the C code ereports before any assignment). -/
def lockGXact (st : TPState) (gid : String) (user : Nat) (isSuper : Bool)
    (myDatabaseId : Nat) (roleExecute : Bool) (myBackendId : Nat)
    (raiseErrorIfNotFound : Bool) : Except TPErr (Option TPState) × TPState :=
  match lockScan st.prepXacts gid user isSuper myDatabaseId roleExecute myBackendId with
  | .error err => (.error err, st)
  | .ok none =>
      if raiseErrorIfNotFound then (.error .notFound, st) else (.ok none, st)
  | .ok (some l') =>
      let st' := { st with prepXacts := l' }
      (.ok (some st'), st')

/-- The swap-removal of RemoveGXact (twophase.c:690-691): the entry at
index `i` is overwritten by the last entry and numPrepXacts decremented. -/
def removeAtSwap {α : Type} (l : List α) (i : Nat) : List α :=
  match l.getLast? with
  | none => l
  | some last => (l.set i last).dropLast

/-- RemoveGXact (twophase.c:678) on the entry at index `i`: swap-remove
from the active array and return the struct to the free list. -/
def removeGXact (st : TPState) (i : Nat) : TPState :=
  { st with prepXacts := removeAtSwap st.prepXacts i,
            freeCount := st.freeCount + 1 }

/-- AtAbort_Twophase (twophase.c:348).  `mlg` is MyLockedGxact as an index
into the active array (`none` models NULL).  A not-yet-valid entry is
removed (RemoveGXact); a valid one only has its locking_backend cleared.
Returns the new registry and the new MyLockedGxact (always NULL). -/
def atAbortTwophase (st : TPState) (mlg : Option Nat) : TPState × Option Nat :=
  match mlg with
  | none => (st, none)
  | some i =>
    match st.prepXacts.get? i with
    | none => (st, none)  -- unreachable: MyLockedGxact always denotes a live entry
    | some e =>
      if e.valid then
        let l' := modifyAt st.prepXacts i (fun g => { g with locking_backend := none })
        ({ st with prepXacts := l' }, none)
      else
        (removeGXact st i, none)

/-- Driver for the Reserve-sequence scenario: apply MarkAsPreparing once
per gid, counting the successful calls (twophase.c:412 repeatedly). -/
def runReserves (st : TPState) (gids : List String) (xid : Nat)
    (prepared_at : Nat) (owner : Nat) (databaseid : Nat) (lsn : Nat)
    (myBackendId : Nat) : TPState × Nat :=
  gids.foldl
    (fun acc g =>
      match markAsPreparing acc.1 xid g prepared_at owner databaseid lsn myBackendId with
      | (.ok _, st') => (st', acc.2 + 1)
      | (.error _, st') => (st', acc.2))
    (st, 0)

/-- The early-return path of FinishPreparedTransaction (twophase.c:1292-1319):
LockGXact with raiseErrorIfNotFound = false; when it reports "no such
transaction", the function waits for the mirror only in the commit case and
returns false ("not performed").  The result is `some (performed, waitedForMirror)`
on that path, `none` when control continues into the main body. -/
def finishPreparedMissing (st : TPState) (gid : String) (user : Nat)
    (isSuper : Bool) (myDatabaseId : Nat) (roleExecute : Bool)
    (myBackendId : Nat) (isCommit : Bool) :
    Option (Bool × Bool) × TPState :=
  match lockGXact st gid user isSuper myDatabaseId roleExecute myBackendId false with
  | (.ok none, st') => (some (false, isCommit), st')
  | (_, st') => (none, st')

/-! ### Recovery model (PrescanPreparedTransactions / RecoverPreparedTransactions) -/

/-- The fields of a durable prepare-record header (TwoPhaseFileHeader,
twophase.c:953) that the recovery paths consume, together with the
subtransaction-id section that immediately follows it.  `gid` is the
NUL-terminated string stored in the fixed char[200] field. -/
structure PrepRecHdr where
  xid : Nat
  database : Nat
  prepared_at : Nat
  owner : Nat
  gid : String
  subxids : List Nat
  deriving DecidableEq, Repr

/-- StartPrepare's header assembly (twophase.c:1058-1070): every header
field of the durable record is copied from the live entry (hdr.database
from proc->databaseId, hdr.prepared_at and hdr.owner and hdr.gid from the
gxact), and the subxact ids follow. -/
def startPrepareHeader (e : GXactEnt) (subxids : List Nat) : PrepRecHdr :=
  { xid := e.xid, database := e.databaseId, prepared_at := e.prepared_at,
    owner := e.owner, gid := e.gid, subxids := subxids }

/-- One iteration of the RecoverPreparedTransactions loop
(twophase.c:1782-1879) for a readable record: MarkAsPreparing with the
metadata stored in the header, then MarkAsPrepared on the new entry (the
entry is appended at the end of the active array, so its index is the old
length).  A MarkAsPreparing ereport aborts startup, modelled as `.error`. -/
def recoverOne (st : TPState) (h : PrepRecHdr) (lsn : Nat)
    (myBackendId : Nat) : Except TPErr TPState :=
  match markAsPreparing st h.xid h.gid h.prepared_at h.owner h.database lsn myBackendId with
  | (.error err, _) => .error err
  | (.ok _, st') => .ok (markAsPrepared st' st.prepXacts.length)

/-- RecoverPreparedTransactions over the whole RecoveryIndex (the hash map
of unresolved prepare records), in scan order. -/
def recoverRecords (st : TPState) (records : List (PrepRecHdr × Nat))
    (myBackendId : Nat) : Except TPErr TPState :=
  match records with
  | [] => .ok st
  | (h, lsn) :: rest =>
    match recoverOne st h lsn myBackendId with
    | .error err => .error err
    | .ok st' => recoverRecords st' rest myBackendId

/-- FirstNormalTransactionId. -/
def firstNormalXid : Nat := 3

/-- TransactionIdPrecedes (transam.c): special ids compare by plain
ordering; normal ids compare by the sign of the 32-bit difference. -/
def xidPrecedes (a b : Nat) : Bool :=
  if a < firstNormalXid ∨ b < firstNormalXid then decide (a < b)
  else decide (2 ^ 31 ≤ (a + 2 ^ 32 - b) % 2 ^ 32)

/-- TransactionIdFollowsOrEquals (transam.c). -/
def xidFollowsOrEquals (a b : Nat) : Bool :=
  if a < firstNormalXid ∨ b < firstNormalXid then decide (b ≤ a)
  else decide ((a + 2 ^ 32 - b) % 2 ^ 32 < 2 ^ 31)

/-- TransactionIdAdvance: increment with 32-bit wraparound, skipping the
special ids below FirstNormalTransactionId. -/
def xidAdvance (x : Nat) : Nat :=
  let y := (x + 1) % 2 ^ 32
  if y < firstNormalXid then firstNormalXid else y

/-- The nextXid maintenance of PrescanPreparedTransactions
(twophase.c:1655-1668): for each subxact id, if it follows-or-equals the
counter, the counter becomes that id advanced by one. -/
def prescanSubStep (nextXid : Nat) (subxids : List Nat) : Nat :=
  subxids.foldl (fun nx s => if xidFollowsOrEquals s nx then xidAdvance s else nx) nextXid

/-- PrescanPreparedTransactions (twophase.c:1578), for records that are all
readable.  `didCommit`/`didAbort` model the transaction-status store
(TransactionIdDidCommit/DidAbort).  Returns (oldest valid xid, final
nextXid): a record whose transaction already shows committed or aborted is
skipped; otherwise its xid is folded into the running minimum and its
subxact ids may advance nextXid. -/
def prescan (records : List PrepRecHdr) (didCommit didAbort : Nat → Bool)
    (origNextXid : Nat) : Nat × Nat :=
  records.foldl
    (fun acc h =>
      if !didCommit h.xid && !didAbort h.xid then
        (if xidPrecedes h.xid acc.1 then h.xid else acc.1,
         prescanSubStep acc.2 h.subxids)
      else acc)
    (origNextXid, origNextXid)

/-- The records of a scan that are neither committed nor aborted in the
status store — the "unresolved" ones the spec speaks about. -/
def unresolvedRecs (records : List PrepRecHdr) (didCommit didAbort : Nat → Bool) :
    List PrepRecHdr :=
  records.filter (fun h => !didCommit h.xid && !didAbort h.xid)

/-! ### Event traces for the ordering claims -/

/-- Observable calls of FinishPreparedTransaction (twophase.c:1267-1474)
and of RecordTransactionCommitPrepared / RecordTransactionAbortPrepared,
in the granularity the ordering claims need. -/
inductive FinishEv where
  | insertOutcome        -- XLogInsert of XLOG_XACT_COMMIT/ABORT_PREPARED
  | flushOutcome         -- XLogFlush(recptr)
  | setDistributedCommitted  -- DistributedLog_SetCommittedTree (commit only)
  | updateClogTree       -- TransactionIdCommitTree / TransactionIdAbortTree
  | syncRepWait          -- SyncRepWaitForLSN
  | procArrayRemove      -- ProcArrayRemove(proc, latestXid)
  | markInvalid          -- gxact->valid = false
  | dropRelFiles         -- DropRelationFiles(delrels, ndelrels)
  | relcachePreInval     -- RelationCacheInitFilePreInvalidate
  | sendInvalMsgs        -- SendSharedInvalidMessages
  | relcachePostInval    -- RelationCacheInitFilePostInvalidate
  | runCallbacks         -- ProcessRecords(post-commit / post-abort)
  | predicateLockFinish  -- PredicateLockTwoPhaseFinish
  | pgstatCount          -- AtEOXact_PgStat
  | removeRecoveryEntry  -- remove_recover_post_checkpoint_..._map_entry
  | removeFromRegistry   -- RemoveGXact(gxact)
  deriving DecidableEq, Repr

/-- RecordTransactionCommitPrepared (twophase.c:1893-2004): insert commit
record, flush it, mark the distributed log, then mark the commit tree in
pg_clog, and finally wait for synchronous replication. -/
def recordCommitPreparedTrace : List FinishEv :=
  [.insertOutcome, .flushOutcome, .setDistributedCommitted, .updateClogTree, .syncRepWait]

/-- RecordTransactionAbortPrepared (twophase.c:2014-2087): insert abort
record, flush it, mark the abort tree in pg_clog, wait for replication. -/
def recordAbortPreparedTrace : List FinishEv :=
  [.insertOutcome, .flushOutcome, .updateClogTree, .syncRepWait]

/-- The call sequence of FinishPreparedTransaction after the record has
been parsed (twophase.c:1386-1462), for either outcome; the relcache
init-file invalidations only run when the header requests them. -/
def finishTrace (isCommit : Bool) (initfileinval : Bool) : List FinishEv :=
  (if isCommit then recordCommitPreparedTrace else recordAbortPreparedTrace) ++
  [.procArrayRemove, .markInvalid, .dropRelFiles] ++
  (if initfileinval then [.relcachePreInval] else []) ++
  [.sendInvalMsgs] ++
  (if initfileinval then [.relcachePostInval] else []) ++
  [.runCallbacks, .predicateLockFinish, .pgstatCount,
   .removeRecoveryEntry, .removeFromRegistry]

/-- Index of the first occurrence of an event in a trace (length if absent). -/
def evIdx : List FinishEv → FinishEv → Nat
  | [], _ => 0
  | x :: xs, e => if x = e then 0 else evIdx xs e + 1

/-- Steps taken by PrescanPreparedTransactions (twophase.c:1610-1632) and by
FinishPreparedTransaction (twophase.c:1338-1353) when XLogReadRecord
returns no record for a prepare-record location. -/
inductive ReadFailEv where
  | readRecord        -- XLogReadRecord(xlogreader, tfXLogRecPtr, &errormsg)
  | accessHeaderField -- hdr = XLogRecGetData(tfRecord); xid = hdr->xid
  | warnFailure       -- ereport(WARNING, ...)
  | raiseCorrupt      -- ereport(ERROR, ERRCODE_DATA_CORRUPTED, ...)
  deriving DecidableEq, Repr

/-- PrescanPreparedTransactions when the log reader returns no record
(twophase.c:1610-1632): the code computes hdr = XLogRecGetData(tfRecord)
and reads hdr->xid (line 1611-1612) before the tfRecord == NULL test that
raises the corruption error. -/
def prescanReadFailTrace : List ReadFailEv :=
  [.readRecord, .accessHeaderField, .warnFailure, .raiseCorrupt]

/-- FinishPreparedTransaction when the log reader returns no record
(twophase.c:1338-1353): the NULL test comes directly after the read, and
no record field is touched before the error. -/
def finishReadFailTrace : List ReadFailEv :=
  [.readRecord, .warnFailure, .raiseCorrupt]

/-- Index of the first occurrence of a read-failure event (length if absent). -/
def rfIdx : List ReadFailEv → ReadFailEv → Nat
  | [], _ => 0
  | x :: xs, e => if x = e then 0 else rfIdx xs e + 1

/-! ### Byte-level state-record format (StartPrepare / EndPrepare / decode) -/

/-- MAXALIGN for the 64-bit platform the code targets (MAXIMUM_ALIGNOF = 8). -/
def maxalign (n : Nat) : Nat := ((n + 7) / 8) * 8

/-- The padding applied by save_state_data (twophase.c:1005): each block is
extended to a MAXALIGN multiple.  (The C buffer's pad bytes are whatever
palloc left there; the decoder never reads them, and the model uses 0.) -/
def pad8 (bs : List Nat) : List Nat :=
  bs ++ List.replicate (maxalign bs.length - bs.length) 0

/-- Little-endian byte serializations of the fixed-width header fields. -/
def u16Bytes (n : Nat) : List Nat := [n % 256, n / 256 % 256]

def u32Bytes (n : Nat) : List Nat :=
  [n % 256, n / 256 % 256, n / 2 ^ 16 % 256, n / 2 ^ 24 % 256]

def u64Bytes (n : Nat) : List Nat := u32Bytes (n % 2 ^ 32) ++ u32Bytes (n / 2 ^ 32)

def byteAt (bs : List Nat) (i : Nat) : Nat := bs.getD i 0

def readU16 (bs : List Nat) : Nat := byteAt bs 0 + 256 * byteAt bs 1

def readU32 (bs : List Nat) : Nat :=
  byteAt bs 0 + 256 * byteAt bs 1 + 2 ^ 16 * byteAt bs 2 + 2 ^ 24 * byteAt bs 3

def readU64 (bs : List Nat) : Nat := readU32 bs + 2 ^ 32 * readU32 (bs.drop 4)

/-- TWOPHASE_MAGIC (twophase.c:951). -/
def TWOPHASE_MAGIC : Nat := 0x57F94532

/-- sizeof(TwoPhaseFileHeader) on the 64-bit platform: fields at offsets
magic 0, total_len 4, xid 8, database 12, prepared_at 16, owner 24,
nsubxacts 28, ncommitrels 32, nabortrels 36, ninvalmsgs 40,
initfileinval 44, gid 45..244; the struct is padded to its 8-byte
alignment, giving 248.  MAXALIGN(248) = 248. -/
def hdrSize : Nat := 248

/-- The header fields StartPrepare fills in (twophase.c:1058-1070); magic is
the TWOPHASE_MAGIC constant, total_len is backfilled by EndPrepare, and the
counts are the lengths of the section lists.  `gid` is the 200-byte
char[GIDSIZE] field after StrNCpy (NUL-padded). -/
structure DiskHdrIn where
  xid : Nat
  database : Nat
  prepared_at : Nat
  owner : Nat
  initfileinval : Bool
  gid : List Nat
  deriving DecidableEq, Repr

/-- Byte image of TwoPhaseFileHeader with the given total_len and counts. -/
def encodeHdr (h : DiskHdrIn) (total_len nsubxacts ncommitrels nabortrels ninvalmsgs : Nat) :
    List Nat :=
  u32Bytes TWOPHASE_MAGIC ++ u32Bytes total_len ++ u32Bytes h.xid ++
  u32Bytes h.database ++ u64Bytes h.prepared_at ++ u32Bytes h.owner ++
  u32Bytes nsubxacts ++ u32Bytes ncommitrels ++ u32Bytes nabortrels ++
  u32Bytes ninvalmsgs ++ [if h.initfileinval then 1 else 0] ++ h.gid ++ [0, 0, 0]

/-- A resource-manager sub-record as passed to RegisterTwoPhaseRecord
(twophase.c:1214): rmgr id (uint8), flag bits (uint16), payload. -/
structure RmRec where
  rmid : Nat
  info : Nat
  data : List Nat
  deriving DecidableEq, Repr

/-- RegisterTwoPhaseRecord (twophase.c:1214): a TwoPhaseRecordOnDisk header
(uint32 len at offset 0, uint8 rmid at 4, one padding byte, uint16 info
at 6; sizeof = 8 = MAXALIGN(8)) followed by the MAXALIGN-padded payload
(omitted when len = 0). -/
def encodeRm (r : RmRec) : List Nat :=
  (u32Bytes r.data.length ++ [r.rmid, 0] ++ u16Bytes r.info) ++ pad8 r.data

/-- The end sentinel appended by EndPrepare (twophase.c:1116):
a TwoPhaseRecordOnDisk with len = 0, rmid = TWOPHASE_RM_END_ID = 0. -/
def sentinelBytes : List Nat := List.replicate 8 0

/-- The byte stream assembled by StartPrepare + RegisterTwoPhaseRecord
calls + EndPrepare, after EndPrepare has backfilled total_len
(= accumulated padded length + sizeof(pg_crc32)): header, subxact ids,
commit-time delete list, abort-time delete list, invalidation messages —
each section padded to MAXALIGN by save_state_data — then the rmgr
sub-records and the sentinel.  Empty sections contribute no bytes, exactly
as the `if (hdr.nsubxacts > 0)`-style guards do. -/
def sectionBytes (subxacts : List Nat) (commitrels abortrels invalmsgs : List (List Nat))
    (rms : List RmRec) : List Nat :=
  pad8 (subxacts.map u32Bytes).flatten ++
  pad8 commitrels.flatten ++
  pad8 abortrels.flatten ++
  pad8 invalmsgs.flatten ++
  (rms.map encodeRm).flatten ++ sentinelBytes

def encodeStateRecord (h : DiskHdrIn) (subxacts : List Nat)
    (commitrels abortrels invalmsgs : List (List Nat)) (rms : List RmRec) :
    List Nat :=
  let rest := sectionBytes subxacts commitrels abortrels invalmsgs rms
  encodeHdr h (hdrSize + rest.length + 4) subxacts.length commitrels.length
    abortrels.length invalmsgs.length ++ rest

/-- The header fields as read back by the finish/recovery paths (a straight
cast of the buffer to TwoPhaseFileHeader). -/
structure DiskHdrOut where
  magic : Nat
  total_len : Nat
  xid : Nat
  database : Nat
  prepared_at : Nat
  owner : Nat
  nsubxacts : Nat
  ncommitrels : Nat
  nabortrels : Nat
  ninvalmsgs : Nat
  initfileinval : Bool
  gid : List Nat
  deriving DecidableEq, Repr

def decodeHdr (bs : List Nat) : DiskHdrOut :=
  { magic := readU32 bs, total_len := readU32 (bs.drop 4),
    xid := readU32 (bs.drop 8), database := readU32 (bs.drop 12),
    prepared_at := readU64 (bs.drop 16), owner := readU32 (bs.drop 24),
    nsubxacts := readU32 (bs.drop 28), ncommitrels := readU32 (bs.drop 32),
    nabortrels := readU32 (bs.drop 36), ninvalmsgs := readU32 (bs.drop 40),
    initfileinval := byteAt bs 44 == 1, gid := (bs.drop 45).take 200 }

/-- Read `n` 4-byte ids from the front of `bs` (the subxact array). -/
def readU32List (bs : List Nat) : Nat → List Nat
  | 0 => []
  | n + 1 => readU32 bs :: readU32List (bs.drop 4) n

/-- Split the front of `bs` into `n` chunks of `size` bytes (the fixed-size
element arrays whose element type belongs to a collaborator). -/
def chunkList (bs : List Nat) (size : Nat) : Nat → List (List Nat)
  | 0 => []
  | n + 1 => bs.take size :: chunkList (bs.drop size) size n

/-- ProcessRecords (twophase.c:1480): read the TwoPhaseRecordOnDisk at the
cursor; stop at rmid == TWOPHASE_RM_END_ID; otherwise take `len` payload
bytes after the MAXALIGN'd record header and skip MAXALIGN(len) forward.
`fuel` bounds the loop (the C loop is bounded by the record count). -/
def decodeRms (fuel : Nat) (bs : List Nat) : List RmRec :=
  match fuel with
  | 0 => []
  | f + 1 =>
    if byteAt bs 4 = 0 then []
    else
      { rmid := byteAt bs 4, info := readU16 (bs.drop 6),
        data := (bs.drop 8).take (readU32 bs) } ::
      decodeRms f (bs.drop (8 + maxalign (readU32 bs)))

/-- The decoding FinishPreparedTransaction performs (twophase.c:1360-1370,
1445-1447): cast the header, then step through the sections at the
MAXALIGN-derived offsets using the header counts, then walk the rmgr
sub-records. -/
def decodeStateRecord (relSize invalSize : Nat) (bs : List Nat) :
    DiskHdrOut × List Nat × List (List Nat) × List (List Nat) × List (List Nat) × List RmRec :=
  let hdr := decodeHdr bs
  let p1 := bs.drop hdrSize
  let subxacts := readU32List p1 hdr.nsubxacts
  let p2 := p1.drop (maxalign (hdr.nsubxacts * 4))
  let commitrels := chunkList p2 relSize hdr.ncommitrels
  let p3 := p2.drop (maxalign (hdr.ncommitrels * relSize))
  let abortrels := chunkList p3 relSize hdr.nabortrels
  let p4 := p3.drop (maxalign (hdr.nabortrels * relSize))
  let invalmsgs := chunkList p4 invalSize hdr.ninvalmsgs
  let p5 := p4.drop (maxalign (hdr.ninvalmsgs * invalSize))
  (hdr, subxacts, commitrels, abortrels, invalmsgs, decodeRms bs.length p5)

deriving instance DecidableEq for Except

/-! ### Helper lemmas: registry -/

theorem hasGid_eq_true_iff (l : List GXactEnt) (g : String) :
    hasGid l g = true ↔ ∃ e ∈ l, e.gid = g := by
  simp [hasGid, List.any_eq_true, beq_iff_eq]

theorem hasGid_eq_false_iff (l : List GXactEnt) (g : String) :
    hasGid l g = false ↔ ∀ e ∈ l, e.gid ≠ g := by
  rw [← Bool.not_eq_true, hasGid_eq_true_iff]
  push_neg
  rfl

theorem markAsPreparing_ok (st : TPState) (xid : Nat) (gid : String)
    (pa ow db lsn bk : Nat) (hlen : gid.length < GIDSIZE)
    (hcap : st.maxPreparedXacts ≠ 0) (hdup : ∀ e ∈ st.prepXacts, e.gid ≠ gid)
    (hfree : st.freeCount ≠ 0) :
    markAsPreparing st xid gid pa ow db lsn bk =
      (.ok { gid := gid, owner := ow, databaseId := db, prepared_at := pa,
             xid := xid, valid := false, locking_backend := some bk,
             prepare_begin_lsn := lsn },
       { st with freeCount := st.freeCount - 1,
                 prepXacts := st.prepXacts ++
                   [{ gid := gid, owner := ow, databaseId := db, prepared_at := pa,
                      xid := xid, valid := false, locking_backend := some bk,
                      prepare_begin_lsn := lsn }] }) := by
  rw [markAsPreparing, if_neg (by omega), if_neg hcap,
    if_neg (by rw [Bool.not_eq_true, hasGid_eq_false_iff]; exact hdup), if_neg hfree]

theorem modifyAt_of_get? {α : Type} (l : List α) (i : Nat) (f : α → α) (a : α)
    (h : l.get? i = some a) : modifyAt l i f = l.set i (f a) := by
  induction l generalizing i with
  | nil => simp at h
  | cons x xs ih =>
    cases i with
    | zero => simp at h; simp [modifyAt, h, List.set]
    | succ n =>
      simp at h
      simp [modifyAt, List.set, ih n (by rw [List.get?_eq_getElem?]; exact h)]

theorem modifyAt_append_middle {α : Type} (l₁ l₂ : List α) (e : α) (f : α → α) :
    modifyAt (l₁ ++ e :: l₂) l₁.length f = l₁ ++ f e :: l₂ := by
  induction l₁ with
  | nil => rfl
  | cons x xs ih => simp [modifyAt, ih]

theorem get?_set {α : Type} (l : List α) (i j : Nat) (a : α) :
    (l.set i a).get? j = if j = i ∧ i < l.length then some a else l.get? j := by
  induction l generalizing i j with
  | nil => simp [List.set]
  | cons x xs ih =>
    cases i with
    | zero =>
      cases j with
      | zero => simp [List.set]
      | succ m => simp [List.set]
    | succ n =>
      cases j with
      | zero => simp [List.set]
      | succ m =>
        simp only [List.set, List.get?, ih n m]
        by_cases hm : m = n <;> simp [hm, Nat.succ_lt_succ_iff]

theorem get?_dropLast {α : Type} (l : List α) (j : Nat) (h : j < l.length - 1) :
    l.dropLast.get? j = l.get? j := by
  rw [List.dropLast_eq_take, List.get?_take]
  omega

theorem removeAtSwap_length {α : Type} (l : List α) (i : Nat) (h : 0 < l.length) :
    (removeAtSwap l i).length = l.length - 1 := by
  rw [removeAtSwap]
  cases hl : l.getLast? with
  | none => rw [List.getLast?_eq_none_iff] at hl; simp [hl] at h
  | some last => simp [List.length_dropLast, List.length_set]

theorem removeAtSwap_get? {α : Type} (l : List α) (i j : Nat) (h : j < l.length - 1) :
    (removeAtSwap l i).get? j = if j = i then l.get? (l.length - 1) else l.get? j := by
  rw [removeAtSwap]
  cases hl : l.getLast? with
  | none =>
    rw [List.getLast?_eq_none_iff] at hl
    subst hl; simp at h
  | some last =>
    have hne : l ≠ [] := by
      intro hn; subst hn; simp at hl
    have hlast : l.get? (l.length - 1) = some last := by
      rwa [List.get?_eq_getElem?, ← List.getLast?_eq_getElem?]
    rw [get?_dropLast _ _ (by simpa using h), get?_set]
    by_cases hji : j = i
    · subst hji
      rw [if_pos ⟨rfl, by omega⟩, if_pos rfl, hlast]
    · rw [if_neg (by tauto), if_neg hji]

theorem mem_removeAtSwap {α : Type} (l : List α) (i : Nat) :
    ∀ x ∈ removeAtSwap l i, x ∈ l := by
  intro x hx
  rw [removeAtSwap] at hx
  cases hl : l.getLast? with
  | none => rw [hl] at hx; exact hx
  | some last =>
    rw [hl] at hx
    have hx' := (List.dropLast_sublist _).mem hx
    rcases List.mem_or_eq_of_mem_set hx' with h | h
    · exact h
    · subst h
      have hne : l ≠ [] := by
        intro hn; subst hn; simp at hl
      rw [List.getLast?_eq_getLast _ hne] at hl
      have := List.getLast_mem hne
      simp only [Option.some_inj] at hl
      rwa [hl] at this

theorem lockScan_entry_cond (e : GXactEnt) (g : String) :
    (e.valid && e.gid == g) = true ↔ e.valid = true ∧ e.gid = g := by
  simp [Bool.and_eq_true, beq_iff_eq]

theorem lockScan_no_match (l : List GXactEnt) (g : String) (u : Nat) (s : Bool)
    (db : Nat) (ex : Bool) (b : Nat)
    (h : ∀ e ∈ l, ¬(e.valid = true ∧ e.gid = g)) :
    lockScan l g u s db ex b = .ok none := by
  induction l with
  | nil => rfl
  | cons e rest ih =>
    rw [lockScan, if_neg]
    · rw [ih (fun e' he' => h e' (List.mem_cons_of_mem _ he'))]
    · rw [Bool.not_eq_true, ← Bool.not_eq_true (e.valid && e.gid == g),
        lockScan_entry_cond]
      exact h e (List.mem_cons_self _ _)

theorem lockScan_skip (l₁ : List GXactEnt) (rest : List GXactEnt) (g : String)
    (u : Nat) (s : Bool) (db : Nat) (ex : Bool) (b : Nat)
    (h : ∀ e ∈ l₁, ¬(e.valid = true ∧ e.gid = g)) :
    lockScan (l₁ ++ rest) g u s db ex b =
      match lockScan rest g u s db ex b with
      | .error err => .error err
      | .ok none => .ok none
      | .ok (some rest') => .ok (some (l₁ ++ rest')) := by
  induction l₁ with
  | nil =>
    simp only [List.nil_append]
    cases lockScan rest g u s db ex b with
    | error err => rfl
    | ok o => cases o <;> rfl
  | cons e l₁t ih =>
    rw [List.cons_append, lockScan, if_neg]
    · rw [ih (fun e' he' => h e' (List.mem_cons_of_mem _ he'))]
      cases lockScan rest g u s db ex b with
      | error err => rfl
      | ok o => cases o <;> rfl
    · rw [Bool.not_eq_true, ← Bool.not_eq_true (e.valid && e.gid == g),
        lockScan_entry_cond]
      exact h e (List.mem_cons_self _ _)

theorem lockScan_found_busy (l₂ : List GXactEnt) (e : GXactEnt) (g : String)
    (u : Nat) (s : Bool) (db : Nat) (ex : Bool) (b : Nat)
    (hv : e.valid = true) (hg : e.gid = g) (hl : e.locking_backend.isSome) :
    lockScan (e :: l₂) g u s db ex b = .error .busy := by
  rw [lockScan, if_pos (by rw [lockScan_entry_cond]; exact ⟨hv, hg⟩), if_pos hl]

theorem lockScan_found_perm (l₂ : List GXactEnt) (e : GXactEnt) (g : String)
    (u : Nat) (db : Nat) (ex : Bool) (b : Nat)
    (hv : e.valid = true) (hg : e.gid = g) (hl : e.locking_backend = none)
    (hu : u ≠ e.owner) :
    lockScan (e :: l₂) g u false db ex b = .error .permissionDenied := by
  rw [lockScan, if_pos (by rw [lockScan_entry_cond]; exact ⟨hv, hg⟩),
    if_neg (by simp [hl]), if_pos (by simp [hu])]

theorem lockScan_found_ok (l₂ : List GXactEnt) (e : GXactEnt) (g : String)
    (u : Nat) (s : Bool) (db : Nat) (ex : Bool) (b : Nat)
    (hv : e.valid = true) (hg : e.gid = g) (hl : e.locking_backend = none)
    (hu : u = e.owner ∨ s = true) (hdb : db = e.databaseId ∨ ex = true) :
    lockScan (e :: l₂) g u s db ex b =
      .ok (some ({ e with locking_backend := some b } :: l₂)) := by
  rw [lockScan, if_pos (by rw [lockScan_entry_cond]; exact ⟨hv, hg⟩),
    if_neg (by simp [hl]), if_neg, if_neg]
  · rcases hdb with h | h <;> simp [h]
  · rcases hu with h | h <;> simp [h]

theorem lockScan_found_dbmismatch (l₂ : List GXactEnt) (e : GXactEnt) (g : String)
    (u : Nat) (s : Bool) (db : Nat) (b : Nat)
    (hv : e.valid = true) (hg : e.gid = g) (hl : e.locking_backend = none)
    (hu : u = e.owner ∨ s = true) (hdb : db ≠ e.databaseId) :
    lockScan (e :: l₂) g u s db false b = .error .databaseMismatch := by
  rw [lockScan, if_pos (by rw [lockScan_entry_cond]; exact ⟨hv, hg⟩),
    if_neg (by simp [hl]), if_neg, if_pos (by simp [hdb])]
  rcases hu with h | h <;> simp [h]

theorem reserve_fold_ok (gids : List String) :
    ∀ (st : TPState) (k : Nat) (xid pa ow db lsn bk : Nat),
    (∀ g ∈ gids, g.length < GIDSIZE) → gids.Nodup →
    st.maxPreparedXacts ≠ 0 →
    (∀ g ∈ gids, ∀ e ∈ st.prepXacts, e.gid ≠ g) →
    gids.length ≤ st.freeCount →
    (gids.foldl
      (fun acc g =>
        match markAsPreparing acc.1 xid g pa ow db lsn bk with
        | (.ok _, st') => (st', acc.2 + 1)
        | (.error _, st') => (st', acc.2)) (st, k)).2 = k + gids.length ∧
    (gids.foldl
      (fun acc g =>
        match markAsPreparing acc.1 xid g pa ow db lsn bk with
        | (.ok _, st') => (st', acc.2 + 1)
        | (.error _, st') => (st', acc.2)) (st, k)).1.prepXacts.length =
      st.prepXacts.length + gids.length ∧
    (gids.foldl
      (fun acc g =>
        match markAsPreparing acc.1 xid g pa ow db lsn bk with
        | (.ok _, st') => (st', acc.2 + 1)
        | (.error _, st') => (st', acc.2)) (st, k)).1.freeCount =
      st.freeCount - gids.length := by
  induction gids with
  | nil => intro st k _ _ _ _ _ _ _; simp
  | cons g rest ih =>
    intro st k xid pa ow db lsn bk hlen hnd hcap hfresh hfree
    have hok := markAsPreparing_ok st xid g pa ow db lsn bk (hlen g (List.mem_cons_self _ _)) hcap (fun e he => hfresh g (List.mem_cons_self _ _) e he) (by simp at hfree; omega)
    rw [List.foldl_cons, hok]
    have hfresh₁ : ∀ g' ∈ rest, ∀ e ∈ st.prepXacts ++ [({ gid := g, owner := ow, databaseId := db, prepared_at := pa, xid := xid, valid := false, locking_backend := some bk, prepare_begin_lsn := lsn } : GXactEnt)], e.gid ≠ g' := by
      intro g' hg' e he
      simp only [List.mem_append, List.mem_singleton] at he
      rcases he with he | he
      · exact hfresh g' (List.mem_cons_of_mem _ hg') e he
      · subst he
        intro hc
        have hgg : g = g' := hc
        rw [← hgg] at hg'
        exact (List.nodup_cons.mp hnd).1 hg'
    have hrest := ih { st with freeCount := st.freeCount - 1, prepXacts := st.prepXacts ++ [{ gid := g, owner := ow, databaseId := db, prepared_at := pa, xid := xid, valid := false, locking_backend := some bk, prepare_begin_lsn := lsn }] } (k + 1) xid pa ow db lsn bk (fun g' hg' => hlen g' (List.mem_cons_of_mem _ hg')) hnd.of_cons hcap hfresh₁ (by simp at hfree ⊢; omega)
    refine ⟨?_, ?_, ?_⟩
    · rw [hrest.1]; simp; omega
    · rw [hrest.2.1]; simp; omega
    · rw [hrest.2.2]; simp; omega

/-! ### Helper lemmas: xid arithmetic in the linear (no-wraparound) regime -/

theorem xidPrecedes_linear (a b : Nat) (ha : firstNormalXid ≤ a) (ha' : a < 2 ^ 31)
    (hb : firstNormalXid ≤ b) (hb' : b < 2 ^ 31) :
    xidPrecedes a b = decide (a < b) := by
  rw [firstNormalXid] at ha hb
  rw [xidPrecedes, if_neg (by simp only [firstNormalXid]; omega)]
  by_cases hab : a < b
  · rw [decide_eq_true hab, decide_eq_true (by omega : 2 ^ 31 ≤ (a + 2 ^ 32 - b) % 2 ^ 32)]
  · rw [decide_eq_false hab, decide_eq_false]
    omega

theorem xidFollowsOrEquals_linear (a b : Nat) (ha : firstNormalXid ≤ a) (ha' : a < 2 ^ 31)
    (hb : firstNormalXid ≤ b) (hb' : b ≤ 2 ^ 31) :
    xidFollowsOrEquals a b = decide (b ≤ a) := by
  rw [firstNormalXid] at ha hb
  rw [xidFollowsOrEquals, if_neg (by simp only [firstNormalXid]; omega)]
  by_cases hab : b ≤ a
  · rw [decide_eq_true hab, decide_eq_true (by omega : (a + 2 ^ 32 - b) % 2 ^ 32 < 2 ^ 31)]
  · rw [decide_eq_false hab, decide_eq_false]
    omega

theorem xidAdvance_linear (s : Nat) (hs : firstNormalXid ≤ s) (hs' : s < 2 ^ 31) :
    xidAdvance s = s + 1 := by
  rw [firstNormalXid] at hs
  simp only [xidAdvance, firstNormalXid]
  rw [Nat.mod_eq_of_lt (by omega), if_neg (by omega)]

theorem prescanSubStep_spec (subs : List Nat) :
    ∀ (nx : Nat), firstNormalXid ≤ nx → nx ≤ 2 ^ 31 →
    (∀ s ∈ subs, firstNormalXid ≤ s ∧ s < 2 ^ 31) →
    nx ≤ prescanSubStep nx subs ∧ prescanSubStep nx subs ≤ 2 ^ 31 ∧
    firstNormalXid ≤ prescanSubStep nx subs ∧
    (∀ s ∈ subs, s < prescanSubStep nx subs) ∧
    (prescanSubStep nx subs = nx ∨ ∃ s ∈ subs, prescanSubStep nx subs = s + 1) := by
  induction subs with
  | nil =>
    intro nx h1 h2 _
    exact ⟨le_refl _, h2, h1, by simp, Or.inl rfl⟩
  | cons s rest ih =>
    intro nx h1 h2 hs
    have hsb := hs s (List.mem_cons_self _ _)
    rw [prescanSubStep, List.foldl_cons,
      xidFollowsOrEquals_linear s nx hsb.1 hsb.2 h1 h2]
    by_cases hge : nx ≤ s
    · rw [decide_eq_true hge, if_pos rfl, xidAdvance_linear s hsb.1 hsb.2]
      have hrest := ih (s + 1) (by rw [firstNormalXid] at *; omega) (by omega)
        (fun s' hs' => hs s' (List.mem_cons_of_mem _ hs'))
      rw [prescanSubStep] at hrest
      refine ⟨by omega, hrest.2.1, hrest.2.2.1, ?_, ?_⟩
      · intro s' hs'
        rcases List.mem_cons.mp hs' with h | h
        · subst h; omega
        · exact hrest.2.2.2.1 s' h
      · rcases hrest.2.2.2.2 with h | ⟨s', hs', h⟩
        · exact Or.inr ⟨s, List.mem_cons_self _ _, h⟩
        · exact Or.inr ⟨s', List.mem_cons_of_mem _ hs', h⟩
    · rw [decide_eq_false (by omega), if_neg (by simp)]
      have hrest := ih nx h1 h2 (fun s' hs' => hs s' (List.mem_cons_of_mem _ hs'))
      rw [prescanSubStep] at hrest
      refine ⟨hrest.1, hrest.2.1, hrest.2.2.1, ?_, ?_⟩
      · intro s' hs'
        rcases List.mem_cons.mp hs' with h | h
        · subst h; omega
        · exact hrest.2.2.2.1 s' h
      · rcases hrest.2.2.2.2 with h | ⟨s', hs', h⟩
        · exact Or.inl h
        · exact Or.inr ⟨s', List.mem_cons_of_mem _ hs', h⟩

theorem prescan_fold_spec (records : List PrepRecHdr) :
    ∀ (a n : Nat) (dc da : Nat → Bool),
    firstNormalXid ≤ a → a < 2 ^ 31 → firstNormalXid ≤ n → n ≤ 2 ^ 31 →
    (∀ h ∈ records, firstNormalXid ≤ h.xid ∧ h.xid < 2 ^ 31) →
    (∀ h ∈ records, ∀ s ∈ h.subxids, firstNormalXid ≤ s ∧ s < 2 ^ 31) →
    (let r := records.foldl
        (fun acc h =>
          if !dc h.xid && !da h.xid then
            (if xidPrecedes h.xid acc.1 then h.xid else acc.1,
             prescanSubStep acc.2 h.subxids)
          else acc) (a, n)
     let u := unresolvedRecs records dc da
     (r.1 ≤ a ∧ (∀ h ∈ u, r.1 ≤ h.xid) ∧ (r.1 = a ∨ ∃ h ∈ u, r.1 = h.xid)) ∧
     (firstNormalXid ≤ r.1 ∧ r.1 < 2 ^ 31) ∧
     (n ≤ r.2 ∧ (∀ h ∈ u, ∀ s ∈ h.subxids, s < r.2) ∧
      (r.2 = n ∨ ∃ h ∈ u, ∃ s ∈ h.subxids, r.2 = s + 1)) ∧
     (firstNormalXid ≤ r.2 ∧ r.2 ≤ 2 ^ 31)) := by
  induction records with
  | nil =>
    intro a n dc da ha ha' hn hn' _ _
    refine ⟨⟨le_refl _, by simp [unresolvedRecs], Or.inl rfl⟩, ⟨ha, ha'⟩,
      ⟨le_refl _, by simp [unresolvedRecs], Or.inl rfl⟩, hn, hn'⟩
  | cons h rest ih =>
    intro a n dc da ha ha' hn hn' hx hs
    have hxh := hx h (List.mem_cons_self _ _)
    simp only [List.foldl_cons]
    by_cases hcond : (!dc h.xid && !da h.xid) = true
    · rw [if_pos hcond]
      have hufilter : unresolvedRecs (h :: rest) dc da = h :: unresolvedRecs rest dc da := by
        simp [unresolvedRecs, List.filter_cons, hcond]
      have hsub := prescanSubStep_spec h.subxids n hn hn'
        (hs h (List.mem_cons_self _ _))
      have hmin : ∃ m, (if xidPrecedes h.xid a then h.xid else a) = m ∧
          m ≤ a ∧ m ≤ h.xid ∧ (m = a ∨ m = h.xid) := by
        rw [xidPrecedes_linear h.xid a hxh.1 hxh.2 ha ha']
        by_cases hlt : h.xid < a
        · exact ⟨h.xid, by rw [decide_eq_true hlt, if_pos rfl], by omega, le_refl _, Or.inr rfl⟩
        · exact ⟨a, by rw [decide_eq_false hlt, if_neg (by simp)], le_refl _, by omega, Or.inl rfl⟩
      obtain ⟨m, hmeq, hm1, hm2, hm3⟩ := hmin
      rw [hmeq]
      have hrest := ih m (prescanSubStep n h.subxids) dc da
        (by rw [firstNormalXid] at *; omega) (by omega)
        hsub.2.2.1 hsub.2.1
        (fun h' hh' => hx h' (List.mem_cons_of_mem _ hh'))
        (fun h' hh' => hs h' (List.mem_cons_of_mem _ hh'))
      simp only [] at hrest
      rw [hufilter]
      obtain ⟨⟨hr1, hr2, hr3⟩, hrb, ⟨hn1, hn2, hn3⟩, hnb⟩ := hrest
      refine ⟨⟨by omega, ?_, ?_⟩, hrb, ⟨by omega, ?_, ?_⟩, hnb⟩
      · intro h' hh'
        rcases List.mem_cons.mp hh' with hh | hh
        · subst hh; omega
        · exact hr2 h' hh
      · rcases hr3 with hr | ⟨h', hh', hr⟩
        · rcases hm3 with hm | hm
          · exact Or.inl (by omega)
          · exact Or.inr ⟨h, List.mem_cons_self _ _, by omega⟩
        · exact Or.inr ⟨h', List.mem_cons_of_mem _ hh', hr⟩
      · intro h' hh' s hs'
        rcases List.mem_cons.mp hh' with hh | hh
        · subst hh
          have := hsub.2.2.2.1 s hs'
          omega
        · exact hn2 h' hh s hs'
      · rcases hn3 with hr | ⟨h', hh', s, hs', hr⟩
        · rcases hsub.2.2.2.2 with hq | ⟨s, hss, hq⟩
          · exact Or.inl (by omega)
          · exact Or.inr ⟨h, List.mem_cons_self _ _, s, hss, by omega⟩
        · exact Or.inr ⟨h', List.mem_cons_of_mem _ hh', s, hs', hr⟩
    · rw [if_neg hcond]
      have hufilter : unresolvedRecs (h :: rest) dc da = unresolvedRecs rest dc da := by
        simp only [unresolvedRecs, List.filter_cons]
        rw [if_neg hcond]
      have hrest := ih a n dc da ha ha' hn hn'
        (fun h' hh' => hx h' (List.mem_cons_of_mem _ hh'))
        (fun h' hh' => hs h' (List.mem_cons_of_mem _ hh'))
      simp only [] at hrest
      rw [hufilter]
      exact hrest

/-! ### Helper lemmas: byte-level state-record format -/

theorem readU32_u32Bytes (n : Nat) (r : List Nat) (h : n < 2 ^ 32) :
    readU32 (u32Bytes n ++ r) = n := by
  show n % 256 + 256 * (n / 256 % 256) + 2 ^ 16 * (n / 2 ^ 16 % 256) +
    2 ^ 24 * (n / 2 ^ 24 % 256) = n
  omega

theorem readU16_u16Bytes (n : Nat) (r : List Nat) (h : n < 2 ^ 16) :
    readU16 (u16Bytes n ++ r) = n := by
  show n % 256 + 256 * (n / 256 % 256) = n
  omega

theorem readU64_u64Bytes (n : Nat) (r : List Nat) (h : n < 2 ^ 64) :
    readU64 (u64Bytes n ++ r) = n := by
  show readU32 (u32Bytes (n % 2 ^ 32) ++ (u32Bytes (n / 2 ^ 32) ++ r)) +
    2 ^ 32 * readU32 (u32Bytes (n / 2 ^ 32) ++ r) = n
  rw [readU32_u32Bytes _ _ (Nat.mod_lt _ (by norm_num)),
    readU32_u32Bytes _ _ (by omega)]
  omega

theorem maxalign_ge (n : Nat) : n ≤ maxalign n := by
  rw [maxalign]; omega

theorem pad8_length (bs : List Nat) : (pad8 bs).length = maxalign bs.length := by
  have := maxalign_ge bs.length
  simp [pad8]
  omega

theorem drop_pad8 (bs rest : List Nat) :
    (pad8 bs ++ rest).drop (maxalign bs.length) = rest := by
  rw [List.drop_append_of_le_length (by rw [pad8_length])]
  rw [List.drop_eq_nil_of_le (by rw [pad8_length]), List.nil_append]

theorem pad8_append_assoc (bs rest : List Nat) :
    pad8 bs ++ rest = bs ++ (List.replicate (maxalign bs.length - bs.length) 0 ++ rest) := by
  simp [pad8]

theorem decodeHdr_encodeHdr (h : DiskHdrIn) (t ns nc na ni : Nat) (rest : List Nat)
    (ht : t < 2 ^ 32) (hx : h.xid < 2 ^ 32) (hd : h.database < 2 ^ 32)
    (hp : h.prepared_at < 2 ^ 64) (ho : h.owner < 2 ^ 32)
    (hns : ns < 2 ^ 32) (hnc : nc < 2 ^ 32) (hna : na < 2 ^ 32) (hni : ni < 2 ^ 32)
    (hg : h.gid.length = 200) :
    decodeHdr (encodeHdr h t ns nc na ni ++ rest) =
      { magic := TWOPHASE_MAGIC, total_len := t, xid := h.xid,
        database := h.database, prepared_at := h.prepared_at, owner := h.owner,
        nsubxacts := ns, ncommitrels := nc, nabortrels := na, ninvalmsgs := ni,
        initfileinval := h.initfileinval, gid := h.gid } := by
  have e0 : encodeHdr h t ns nc na ni ++ rest =
      u32Bytes TWOPHASE_MAGIC ++ (u32Bytes t ++ (u32Bytes h.xid ++
      (u32Bytes h.database ++ (u64Bytes h.prepared_at ++ (u32Bytes h.owner ++
      (u32Bytes ns ++ (u32Bytes nc ++ (u32Bytes na ++ (u32Bytes ni ++
      ((if h.initfileinval then 1 else 0) :: (h.gid ++ (0 :: 0 :: 0 :: rest)))))))))))) := by
    simp [encodeHdr]
  rw [decodeHdr, e0]
  have f4 : ∀ (v : Nat) (r : List Nat), (u32Bytes v ++ r).drop 4 = r :=
    fun _ _ => rfl
  have f8 : ∀ (v w : Nat) (r : List Nat),
      (u32Bytes v ++ (u32Bytes w ++ r)).drop 8 = r := fun _ _ _ => rfl
  have f12 : ∀ (v w x : Nat) (r : List Nat),
      (u32Bytes v ++ (u32Bytes w ++ (u32Bytes x ++ r))).drop 12 = r :=
    fun _ _ _ _ => rfl
  have f16 : ∀ (v w x y : Nat) (r : List Nat),
      (u32Bytes v ++ (u32Bytes w ++ (u32Bytes x ++ (u32Bytes y ++ r)))).drop 16 = r :=
    fun _ _ _ _ _ => rfl
  have f24 : ∀ (v w x y z : Nat) (r : List Nat),
      (u32Bytes v ++ (u32Bytes w ++ (u32Bytes x ++ (u32Bytes y ++
        (u64Bytes z ++ r))))).drop 24 = r := fun _ _ _ _ _ _ => rfl
  have f28 : ∀ (v w x y z o : Nat) (r : List Nat),
      (u32Bytes v ++ (u32Bytes w ++ (u32Bytes x ++ (u32Bytes y ++
        (u64Bytes z ++ (u32Bytes o ++ r)))))).drop 28 = r := fun _ _ _ _ _ _ _ => rfl
  have f32 : ∀ (v w x y z o a : Nat) (r : List Nat),
      (u32Bytes v ++ (u32Bytes w ++ (u32Bytes x ++ (u32Bytes y ++
        (u64Bytes z ++ (u32Bytes o ++ (u32Bytes a ++ r))))))).drop 32 = r :=
    fun _ _ _ _ _ _ _ _ => rfl
  have f36 : ∀ (v w x y z o a b : Nat) (r : List Nat),
      (u32Bytes v ++ (u32Bytes w ++ (u32Bytes x ++ (u32Bytes y ++
        (u64Bytes z ++ (u32Bytes o ++ (u32Bytes a ++ (u32Bytes b ++ r)))))))).drop 36 = r :=
    fun _ _ _ _ _ _ _ _ _ => rfl
  have f40 : ∀ (v w x y z o a b c : Nat) (r : List Nat),
      (u32Bytes v ++ (u32Bytes w ++ (u32Bytes x ++ (u32Bytes y ++
        (u64Bytes z ++ (u32Bytes o ++ (u32Bytes a ++ (u32Bytes b ++
        (u32Bytes c ++ r))))))))).drop 40 = r := fun _ _ _ _ _ _ _ _ _ _ => rfl
  have f44 : ∀ (v w x y z o a b c d : Nat) (e : Nat) (r : List Nat),
      byteAt (u32Bytes v ++ (u32Bytes w ++ (u32Bytes x ++ (u32Bytes y ++
        (u64Bytes z ++ (u32Bytes o ++ (u32Bytes a ++ (u32Bytes b ++
        (u32Bytes c ++ (u32Bytes d ++ (e :: r))))))))))) 44 = e :=
    fun _ _ _ _ _ _ _ _ _ _ _ _ => rfl
  have f45 : ∀ (v w x y z o a b c d : Nat) (e : Nat) (r : List Nat),
      (u32Bytes v ++ (u32Bytes w ++ (u32Bytes x ++ (u32Bytes y ++
        (u64Bytes z ++ (u32Bytes o ++ (u32Bytes a ++ (u32Bytes b ++
        (u32Bytes c ++ (u32Bytes d ++ (e :: r))))))))))).drop 45 = r :=
    fun _ _ _ _ _ _ _ _ _ _ _ _ => rfl
  rw [f4, f8, f12, f16, f24, f28, f32, f36, f40, f44, f45]
  rw [readU32_u32Bytes _ _ (by norm_num [TWOPHASE_MAGIC]),
    readU32_u32Bytes _ _ ht, readU32_u32Bytes _ _ hx, readU32_u32Bytes _ _ hd,
    readU64_u64Bytes _ _ hp, readU32_u32Bytes _ _ ho, readU32_u32Bytes _ _ hns,
    readU32_u32Bytes _ _ hnc, readU32_u32Bytes _ _ hna, readU32_u32Bytes _ _ hni,
    List.take_left' hg]
  cases hinit : h.initfileinval <;> simp

theorem readU32List_roundtrip (xs : List Nat) :
    ∀ (rest : List Nat), (∀ x ∈ xs, x < 2 ^ 32) →
    readU32List ((xs.map u32Bytes).flatten ++ rest) xs.length = xs := by
  induction xs with
  | nil => intro rest _; rfl
  | cons x xs ih =>
    intro rest hb
    rw [List.length_cons, readU32List]
    have e1 : ((x :: xs).map u32Bytes).flatten ++ rest =
        u32Bytes x ++ ((xs.map u32Bytes).flatten ++ rest) := by
      simp
    have f4 : ∀ (r : List Nat), (u32Bytes x ++ r).drop 4 = r := fun _ => rfl
    rw [e1, readU32_u32Bytes _ _ (hb x (List.mem_cons_self _ _)), f4,
      ih rest (fun y hy => hb y (List.mem_cons_of_mem _ hy))]

theorem chunkList_roundtrip (cs : List (List Nat)) (size : Nat) :
    ∀ (rest : List Nat), (∀ c ∈ cs, c.length = size) →
    chunkList (cs.flatten ++ rest) size cs.length = cs := by
  induction cs with
  | nil => intro rest _; rfl
  | cons c cs ih =>
    intro rest hb
    rw [List.length_cons, chunkList]
    have hc : c.length = size := hb c (List.mem_cons_self _ _)
    have e1 : (c :: cs).flatten ++ rest = c ++ (cs.flatten ++ rest) := by simp
    rw [e1, List.take_left' hc, List.drop_append_of_le_length (le_of_eq hc.symm),
      List.drop_eq_nil_of_le (le_of_eq hc), List.nil_append,
      ih rest (fun y hy => hb y (List.mem_cons_of_mem _ hy))]

theorem take_pad8 (d R : List Nat) : (pad8 d ++ R).take d.length = d := by
  rw [pad8_append_assoc]
  exact List.take_left' rfl

theorem decodeRms_roundtrip (rs : List RmRec) :
    ∀ (fuel : Nat) (rest : List Nat), rs.length < fuel →
    (∀ r ∈ rs, 0 < r.rmid ∧ r.rmid < 256 ∧ r.info < 2 ^ 16 ∧ r.data.length < 2 ^ 32) →
    decodeRms fuel ((rs.map encodeRm).flatten ++ (sentinelBytes ++ rest)) = rs := by
  induction rs with
  | nil =>
    intro fuel rest hfuel _
    cases fuel with
    | zero => omega
    | succ f =>
      rw [List.map_nil, List.flatten_nil, List.nil_append, decodeRms,
        if_pos (by rfl)]
  | cons r rs ih =>
    intro fuel rest hfuel hb
    obtain ⟨hr0, hr1, hr2, hr3⟩ := hb r (List.mem_cons_self _ _)
    cases fuel with
    | zero => omega
    | succ f =>
      have e1 : ((r :: rs).map encodeRm).flatten ++ (sentinelBytes ++ rest) =
          u32Bytes r.data.length ++ (r.rmid :: 0 ::
            (u16Bytes r.info ++ (pad8 r.data ++
              ((rs.map encodeRm).flatten ++ (sentinelBytes ++ rest))))) := by
        simp [encodeRm]
      have g4 : ∀ (v m z : Nat) (t : List Nat),
          byteAt (u32Bytes v ++ (m :: z :: t)) 4 = m := fun _ _ _ _ => rfl
      have g6 : ∀ (v m z : Nat) (t : List Nat),
          (u32Bytes v ++ (m :: z :: t)).drop 6 = t := fun _ _ _ _ => rfl
      have g8 : ∀ (v m z i : Nat) (t : List Nat),
          (u32Bytes v ++ (m :: z :: (u16Bytes i ++ t))).drop 8 = t :=
        fun _ _ _ _ _ => rfl
      have g8k : ∀ (v m z i k : Nat) (t : List Nat),
          (u32Bytes v ++ (m :: z :: (u16Bytes i ++ t))).drop (k + 8) = t.drop k :=
        fun _ _ _ _ _ _ => rfl
      rw [decodeRms, e1, g4]
      rw [if_neg (by omega)]
      rw [readU32_u32Bytes _ _ hr3]
      rw [g6, readU16_u16Bytes _ _ hr2, g8, take_pad8]
      rw [Nat.add_comm 8 (maxalign r.data.length), g8k, drop_pad8]
      rw [ih f rest (by simp at hfuel; omega)
        (fun y hy => hb y (List.mem_cons_of_mem _ hy))]

theorem encodeHdr_length (h : DiskHdrIn) (t ns nc na ni : Nat)
    (hg : h.gid.length = 200) : (encodeHdr h t ns nc na ni).length = 248 := by
  simp [encodeHdr, u32Bytes, u64Bytes, hg]

theorem drop_encodeHdr (h : DiskHdrIn) (t ns nc na ni : Nat) (R : List Nat)
    (hg : h.gid.length = 200) :
    (encodeHdr h t ns nc na ni ++ R).drop hdrSize = R := by
  rw [hdrSize,
    List.drop_append_of_le_length (by rw [encodeHdr_length h t ns nc na ni hg]),
    List.drop_eq_nil_of_le (by rw [encodeHdr_length h t ns nc na ni hg]),
    List.nil_append]

theorem u32_flatten_length (xs : List Nat) :
    ((xs.map u32Bytes).flatten).length = 4 * xs.length := by
  induction xs with
  | nil => rfl
  | cons x xs ih => simp [u32Bytes] at ih ⊢; omega

theorem flatten_length_const (cs : List (List Nat)) (size : Nat)
    (h : ∀ c ∈ cs, c.length = size) : cs.flatten.length = cs.length * size := by
  induction cs with
  | nil => simp
  | cons c cs ih =>
    have hc := h c (List.mem_cons_self _ _)
    simp only [List.flatten_cons, List.length_append, List.length_cons, hc,
      ih (fun y hy => h y (List.mem_cons_of_mem _ hy))]
    ring

theorem encodeRm_flatten_len_ge (rms : List RmRec) :
    rms.length ≤ ((rms.map encodeRm).flatten).length := by
  induction rms with
  | nil => simp
  | cons r rms ih =>
    simp only [List.map_cons, List.flatten_cons, List.length_append, List.length_cons]
    have : 8 ≤ (encodeRm r).length := by
      simp [encodeRm, u32Bytes, u16Bytes]
    omega

/-- C5: The byte stream assembled by StartPrepare, the resource-manager
sub-record registrations and EndPrepare lays the sections out in the fixed
order header, subxact ids, commit-time delete list, abort-time delete
list, invalidation messages, rmgr sub-records, sentinel — each section
padded to the MAXALIGN boundary by save_state_data — and decoding the
stream at the alignment-derived offsets, exactly as
FinishPreparedTransaction and ProcessRecords do, reproduces every header
field (total_len being the EndPrepare-backfilled value, accumulated padded
length plus the CRC32 size) and every section byte-for-byte. -/
theorem c5_state_record_roundtrip (h : DiskHdrIn) (subxacts : List Nat)
    (commitrels abortrels invalmsgs : List (List Nat)) (rms : List RmRec)
    (relSize invalSize : Nat)
    (hg : h.gid.length = 200)
    (hx : h.xid < 2 ^ 32) (hd : h.database < 2 ^ 32) (hp : h.prepared_at < 2 ^ 64)
    (ho : h.owner < 2 ^ 32)
    (htot : hdrSize + (sectionBytes subxacts commitrels abortrels invalmsgs rms).length + 4 < 2 ^ 32)
    (hns : subxacts.length < 2 ^ 32) (hnc : commitrels.length < 2 ^ 32)
    (hna : abortrels.length < 2 ^ 32) (hni : invalmsgs.length < 2 ^ 32)
    (hsub : ∀ x ∈ subxacts, x < 2 ^ 32)
    (hcr : ∀ c ∈ commitrels, c.length = relSize)
    (har : ∀ c ∈ abortrels, c.length = relSize)
    (him : ∀ c ∈ invalmsgs, c.length = invalSize)
    (hrm : ∀ r ∈ rms, 0 < r.rmid ∧ r.rmid < 256 ∧ r.info < 2 ^ 16 ∧ r.data.length < 2 ^ 32) :
    decodeStateRecord relSize invalSize
      (encodeStateRecord h subxacts commitrels abortrels invalmsgs rms) =
    ({ magic := TWOPHASE_MAGIC,
       total_len := hdrSize + (sectionBytes subxacts commitrels abortrels invalmsgs rms).length + 4,
       xid := h.xid, database := h.database, prepared_at := h.prepared_at,
       owner := h.owner, nsubxacts := subxacts.length,
       ncommitrels := commitrels.length, nabortrels := abortrels.length,
       ninvalmsgs := invalmsgs.length, initfileinval := h.initfileinval,
       gid := h.gid },
     subxacts, commitrels, abortrels, invalmsgs, rms) := by
  have e2 : sectionBytes subxacts commitrels abortrels invalmsgs rms =
      pad8 (subxacts.map u32Bytes).flatten ++
      (pad8 commitrels.flatten ++ (pad8 abortrels.flatten ++
      (pad8 invalmsgs.flatten ++
      ((rms.map encodeRm).flatten ++ sentinelBytes)))) := by
    simp [sectionBytes, List.append_assoc]
  -- section-level round trips
  have hsubrt : readU32List (sectionBytes subxacts commitrels abortrels invalmsgs rms)
      subxacts.length = subxacts := by
    rw [e2, pad8_append_assoc, readU32List_roundtrip subxacts _ hsub]
  have hp2 : (sectionBytes subxacts commitrels abortrels invalmsgs rms).drop
      (maxalign (subxacts.length * 4)) =
      pad8 commitrels.flatten ++ (pad8 abortrels.flatten ++
      (pad8 invalmsgs.flatten ++
      ((rms.map encodeRm).flatten ++ sentinelBytes))) := by
    rw [e2, show subxacts.length * 4 = ((subxacts.map u32Bytes).flatten).length by
      rw [u32_flatten_length]; ring]
    exact drop_pad8 _ _
  have hcrt : chunkList (pad8 commitrels.flatten ++ (pad8 abortrels.flatten ++
      (pad8 invalmsgs.flatten ++
      ((rms.map encodeRm).flatten ++ sentinelBytes)))) relSize commitrels.length =
      commitrels := by
    rw [pad8_append_assoc, chunkList_roundtrip commitrels relSize _ hcr]
  have hp3 : (pad8 commitrels.flatten ++ (pad8 abortrels.flatten ++
      (pad8 invalmsgs.flatten ++
      ((rms.map encodeRm).flatten ++ sentinelBytes)))).drop
      (maxalign (commitrels.length * relSize)) =
      pad8 abortrels.flatten ++ (pad8 invalmsgs.flatten ++
      ((rms.map encodeRm).flatten ++ sentinelBytes)) := by
    rw [show commitrels.length * relSize = commitrels.flatten.length by
      rw [flatten_length_const commitrels relSize hcr]]
    exact drop_pad8 _ _
  have hart : chunkList (pad8 abortrels.flatten ++ (pad8 invalmsgs.flatten ++
      ((rms.map encodeRm).flatten ++ sentinelBytes))) relSize abortrels.length =
      abortrels := by
    rw [pad8_append_assoc, chunkList_roundtrip abortrels relSize _ har]
  have hp4 : (pad8 abortrels.flatten ++ (pad8 invalmsgs.flatten ++
      ((rms.map encodeRm).flatten ++ sentinelBytes))).drop
      (maxalign (abortrels.length * relSize)) =
      pad8 invalmsgs.flatten ++
      ((rms.map encodeRm).flatten ++ sentinelBytes) := by
    rw [show abortrels.length * relSize = abortrels.flatten.length by
      rw [flatten_length_const abortrels relSize har]]
    exact drop_pad8 _ _
  have himt : chunkList (pad8 invalmsgs.flatten ++
      ((rms.map encodeRm).flatten ++ sentinelBytes)) invalSize invalmsgs.length =
      invalmsgs := by
    rw [pad8_append_assoc, chunkList_roundtrip invalmsgs invalSize _ him]
  have hp5 : (pad8 invalmsgs.flatten ++
      ((rms.map encodeRm).flatten ++ sentinelBytes)).drop
      (maxalign (invalmsgs.length * invalSize)) =
      (rms.map encodeRm).flatten ++ sentinelBytes := by
    rw [show invalmsgs.length * invalSize = invalmsgs.flatten.length by
      rw [flatten_length_const invalmsgs invalSize him]]
    exact drop_pad8 _ _
  have hfuel : rms.length <
      (encodeStateRecord h subxacts commitrels abortrels invalmsgs rms).length := by
    have h1 := encodeRm_flatten_len_ge rms
    have h2 : sentinelBytes.length = 8 := rfl
    rw [encodeStateRecord]
    simp only [List.length_append]
    rw [e2]
    simp only [List.length_append]
    omega
  have hrmt : decodeRms
      (encodeStateRecord h subxacts commitrels abortrels invalmsgs rms).length
      ((rms.map encodeRm).flatten ++ sentinelBytes) = rms := by
    rw [show (rms.map encodeRm).flatten ++ sentinelBytes =
      (rms.map encodeRm).flatten ++ (sentinelBytes ++ []) by simp]
    exact decodeRms_roundtrip rms _ [] hfuel hrm
  -- assemble
  rw [decodeStateRecord]
  rw [show encodeStateRecord h subxacts commitrels abortrels invalmsgs rms =
    encodeHdr h (hdrSize + (sectionBytes subxacts commitrels abortrels invalmsgs rms).length + 4)
      subxacts.length commitrels.length abortrels.length invalmsgs.length ++
      sectionBytes subxacts commitrels abortrels invalmsgs rms from rfl] at hrmt ⊢
  rw [decodeHdr_encodeHdr h _ _ _ _ _ _ htot hx hd hp ho hns hnc hna hni hg]
  dsimp only []
  rw [drop_encodeHdr _ _ _ _ _ _ _ hg]
  rw [hsubrt, hp2, hcrt, hp3, hart, hp4, himt, hp5, hrmt]

/-! ### Claim theorems -/

/-- C1: In FinishPreparedTransaction, for every prepared transaction and
either outcome, the outcome record is inserted and flushed before the
transaction-status store (pg_clog) is updated; the status-store update
precedes ProcArrayRemove (removal of the shadow handle from the
process-visible transaction table); and that removal precedes marking the
entry invalid, executing the physical delete list, cache invalidation,
the resource-manager callbacks, and RemoveGXact. -/
theorem c1_finish_ordering (isCommit initfileinval : Bool) :
    FinishEv.insertOutcome ∈ finishTrace isCommit initfileinval ∧
    FinishEv.removeFromRegistry ∈ finishTrace isCommit initfileinval ∧
    evIdx (finishTrace isCommit initfileinval) .insertOutcome <
      evIdx (finishTrace isCommit initfileinval) .flushOutcome ∧
    evIdx (finishTrace isCommit initfileinval) .flushOutcome <
      evIdx (finishTrace isCommit initfileinval) .updateClogTree ∧
    evIdx (finishTrace isCommit initfileinval) .updateClogTree <
      evIdx (finishTrace isCommit initfileinval) .procArrayRemove ∧
    evIdx (finishTrace isCommit initfileinval) .procArrayRemove <
      evIdx (finishTrace isCommit initfileinval) .markInvalid ∧
    evIdx (finishTrace isCommit initfileinval) .markInvalid <
      evIdx (finishTrace isCommit initfileinval) .dropRelFiles ∧
    evIdx (finishTrace isCommit initfileinval) .dropRelFiles <
      evIdx (finishTrace isCommit initfileinval) .sendInvalMsgs ∧
    evIdx (finishTrace isCommit initfileinval) .sendInvalMsgs <
      evIdx (finishTrace isCommit initfileinval) .runCallbacks ∧
    evIdx (finishTrace isCommit initfileinval) .runCallbacks <
      evIdx (finishTrace isCommit initfileinval) .removeFromRegistry := by
  cases isCommit <;> cases initfileinval <;> decide

/-- Concrete registry contents used by several witnesses below. -/
def entA : GXactEnt :=
  { gid := "a", owner := 1, databaseId := 7, prepared_at := 11, xid := 100, valid := true, locking_backend := none, prepare_begin_lsn := 5 }

def stA : TPState := { maxPreparedXacts := 2, freeCount := 1, prepXacts := [entA] }

/-- A second, reserved-but-not-yet-valid entry and a registry holding both. -/
def entB : GXactEnt := { entA with gid := "b", valid := false }

def stB : TPState := { maxPreparedXacts := 2, freeCount := 0, prepXacts := [entA, entB] }

/-- C7: FinishPreparedTransaction with allow_missing (raiseErrorIfNotFound
= false) on a GID with no matching valid entry returns "not performed"
(false) without error; it waits for the mirror exactly when the outcome is
commit (so a rollback returns immediately); and the registry is unchanged. -/
theorem c7_finish_missing (st : TPState) (gid : String) (user : Nat)
    (isSuper : Bool) (myDb : Nat) (ex : Bool) (bk : Nat) (isCommit : Bool)
    (hnone : ∀ e ∈ st.prepXacts, ¬(e.valid = true ∧ e.gid = gid)) :
    finishPreparedMissing st gid user isSuper myDb ex bk isCommit =
      (some (false, isCommit), st) := by
  rw [finishPreparedMissing, lockGXact,
    lockScan_no_match st.prepXacts gid user isSuper myDb ex bk hnone]
  rfl

theorem c7_finish_missing_witness :
    (∀ e ∈ stA.prepXacts, ¬(e.valid = true ∧ e.gid = "zz")) ∧
    finishPreparedMissing stA "zz" 1 false 7 false 4 false =
      (some (false, false), stA) :=
  ⟨by decide, c7_finish_missing stA "zz" 1 false 7 false 4 false (by decide)⟩

/-- C9: the claim says both FinishPreparedTransaction and
PrescanPreparedTransactions raise the fatal corruption error before
accessing any field of the record when the log reader returns no record.
FinishPreparedTransaction does (its trace has no field access before the
error), but PrescanPreparedTransactions reads hdr->xid out of
XLogRecGetData(tfRecord) before the tfRecord == NULL test: in its
read-failure trace the header-field access strictly precedes the error. -/
theorem c9_prescan_accesses_header_before_error :
    ReadFailEv.accessHeaderField ∈ prescanReadFailTrace ∧
    rfIdx prescanReadFailTrace .accessHeaderField <
      rfIdx prescanReadFailTrace .raiseCorrupt ∧
    ReadFailEv.accessHeaderField ∉ finishReadFailTrace ∧
    rfIdx finishReadFailTrace .readRecord <
      rfIdx finishReadFailTrace .raiseCorrupt := by
  decide

/-- C10: LockGXact fails (and does not lock the entry) when the matching
valid entry's owning database differs from the caller's current database
and the process is not in the segment-executor role (Gp_role !=
GP_ROLE_EXECUTE), even when the caller is the owner or a superuser. -/
theorem c10_lockGXact_database_mismatch (st : TPState) (g : String) (u : Nat)
    (s : Bool) (db : Nat) (bk : Nat) (l₁ l₂ : List GXactEnt) (e : GXactEnt)
    (raise : Bool)
    (hsplit : st.prepXacts = l₁ ++ e :: l₂)
    (hpre : ∀ e' ∈ l₁, ¬(e'.valid = true ∧ e'.gid = g))
    (hv : e.valid = true) (hg : e.gid = g) (hl : e.locking_backend = none)
    (hauth : u = e.owner ∨ s = true) (hdb : db ≠ e.databaseId) :
    lockGXact st g u s db false bk raise = (.error .databaseMismatch, st) := by
  rw [lockGXact, hsplit, lockScan_skip l₁ _ g u s db false bk hpre,
    lockScan_found_dbmismatch l₂ e g u s db bk hv hg hl hauth hdb]

theorem c10_lockGXact_database_mismatch_witness :
    lockGXact stA "a" 1 true 8 false 4 true = (.error .databaseMismatch, stA) :=
  c10_lockGXact_database_mismatch stA "a" 1 true 8 4 [] [] entA true rfl
    (by decide) rfl rfl rfl (Or.inl rfl) (by decide)

/-- C8: AtAbort_Twophase on a locked entry: when the entry has not yet been
marked valid, it is removed from the active array (one entry fewer, every
remaining entry was already there, and — when GIDs are distinct — no entry
with its GID remains) and the struct returns to the free list; when the
entry is valid, the active array keeps it in place with only the
locking_backend field cleared, and the free list is untouched.  In both
cases MyLockedGxact is reset to NULL. -/
theorem c8_atAbort_spec (st : TPState) (i : Nat) (e : GXactEnt)
    (hget : st.prepXacts.get? i = some e) :
    (atAbortTwophase st (some i)).2 = none ∧
    (e.valid = false →
      (atAbortTwophase st (some i)).1.prepXacts.length = st.prepXacts.length - 1 ∧
      (atAbortTwophase st (some i)).1.freeCount = st.freeCount + 1 ∧
      (∀ e' ∈ (atAbortTwophase st (some i)).1.prepXacts, e' ∈ st.prepXacts) ∧
      ((∀ j e', j ≠ i → st.prepXacts.get? j = some e' → e'.gid ≠ e.gid) →
        ∀ e' ∈ (atAbortTwophase st (some i)).1.prepXacts, e'.gid ≠ e.gid)) ∧
    (e.valid = true →
      (atAbortTwophase st (some i)).1.prepXacts =
        st.prepXacts.set i { e with locking_backend := none } ∧
      (atAbortTwophase st (some i)).1.freeCount = st.freeCount) := by
  have hlt : i < st.prepXacts.length := by
    rcases List.get?_eq_some.mp hget with ⟨hl, _⟩
    exact hl
  simp only [atAbortTwophase, hget, removeGXact]
  refine ⟨?_, ?_, ?_⟩
  · by_cases hv : e.valid = true
    · rw [if_pos hv]
    · rw [if_neg hv]
  · intro hv
    rw [if_neg (by rw [hv]; simp)]
    refine ⟨removeAtSwap_length _ _ (by omega), rfl, mem_removeAtSwap _ _, ?_⟩
    intro hdist e' he'
    rcases List.mem_iff_get?.mp he' with ⟨j, hj⟩
    have hjlt : j < (removeAtSwap st.prepXacts i).length := by
      rcases List.get?_eq_some.mp hj with ⟨hl, _⟩
      exact hl
    rw [removeAtSwap_length _ _ (by omega)] at hjlt
    rw [removeAtSwap_get? _ _ _ hjlt] at hj
    by_cases hji : j = i
    · rw [if_pos hji] at hj
      exact hdist (st.prepXacts.length - 1) e' (by omega) hj
    · rw [if_neg hji] at hj
      exact hdist j e' hji hj
  · intro hv
    rw [if_pos hv]
    exact ⟨modifyAt_of_get? _ _ _ _ hget, rfl⟩

theorem c8_atAbort_spec_witness :
    stB.prepXacts.get? 1 = some entB ∧
    (atAbortTwophase stB (some 1)).1.prepXacts.length = 1 ∧
    (atAbortTwophase stB (some 1)).1.freeCount = 1 := by
  refine ⟨by decide, ?_, ?_⟩
  · exact ((c8_atAbort_spec stB 1 entB (by decide)).2.1 (by decide)).1
  · have h := ((c8_atAbort_spec stB 1 entB (by decide)).2.1 (by decide)).2.1
    rw [h]
    decide

/-- C3: MarkAsPreparing fails with identifierTooLong when the gid reaches
GIDSIZE (199 payload bytes plus terminator), with featureDisabled when
max_prepared_xacts is zero, with duplicateIdentifier when any entry of the
active array — valid or not — already carries the gid, and with
capacityExhausted when the free list is empty; each failure leaves the
registry unchanged (the same state is returned).  Moreover, a sequence of
Reserve calls with distinct, well-formed GIDs starting from the empty
registry succeeds in full as long as it fits the capacity, and the live
entry count equals the number of successful calls. -/
theorem c3_markAsPreparing_spec (st : TPState) (xid : Nat) (gid : String)
    (pa ow db lsn bk c : Nat) (gids : List String) :
    (GIDSIZE ≤ gid.length →
      markAsPreparing st xid gid pa ow db lsn bk = (.error .identifierTooLong, st)) ∧
    (gid.length < GIDSIZE → st.maxPreparedXacts = 0 →
      markAsPreparing st xid gid pa ow db lsn bk = (.error .featureDisabled, st)) ∧
    (gid.length < GIDSIZE → st.maxPreparedXacts ≠ 0 →
      (∃ e ∈ st.prepXacts, e.gid = gid) →
      markAsPreparing st xid gid pa ow db lsn bk = (.error .duplicateIdentifier, st)) ∧
    (gid.length < GIDSIZE → st.maxPreparedXacts ≠ 0 →
      (∀ e ∈ st.prepXacts, e.gid ≠ gid) → st.freeCount = 0 →
      markAsPreparing st xid gid pa ow db lsn bk = (.error .capacityExhausted, st)) ∧
    (gids.Nodup → (∀ g ∈ gids, g.length < GIDSIZE) → gids.length ≤ c → 0 < c →
      (runReserves (emptyTPState c) gids xid pa ow db lsn bk).2 = gids.length ∧
      (runReserves (emptyTPState c) gids xid pa ow db lsn bk).1.prepXacts.length =
        gids.length) := by
  refine ⟨?_, ?_, ?_, ?_, ?_⟩
  · intro h
    rw [markAsPreparing, if_pos h]
  · intro h1 h2
    rw [markAsPreparing, if_neg (by omega), if_pos h2]
  · intro h1 h2 h3
    rw [markAsPreparing, if_neg (by omega), if_neg h2,
      if_pos (by rw [hasGid_eq_true_iff]; exact h3)]
  · intro h1 h2 h3 h4
    rw [markAsPreparing, if_neg (by omega), if_neg h2,
      if_neg (by rw [Bool.not_eq_true, hasGid_eq_false_iff]; exact h3), if_pos h4]
  · intro hnd hlen hle hc
    have h := reserve_fold_ok gids (emptyTPState c) 0 xid pa ow db lsn bk hlen hnd
      (by simp [emptyTPState]; omega)
      (by intro g hg e he; simp [emptyTPState] at he)
      (by simp [emptyTPState]; exact hle)
    rw [runReserves]
    refine ⟨by rw [h.1]; omega, by rw [h.2.1]; simp [emptyTPState]⟩

theorem c3_markAsPreparing_spec_witness :
    (let long := String.mk (List.replicate 200 'x')
     GIDSIZE ≤ long.length ∧
     markAsPreparing stA 7 long 0 0 0 0 9 = (.error .identifierTooLong, stA)) ∧
    markAsPreparing (emptyTPState 0) 7 "g" 0 0 0 0 9 =
      (.error .featureDisabled, emptyTPState 0) ∧
    markAsPreparing stB 7 "b" 0 0 0 0 9 = (.error .duplicateIdentifier, stB) ∧
    markAsPreparing stB 7 "c" 0 0 0 0 9 = (.error .capacityExhausted, stB) ∧
    (runReserves (emptyTPState 2) ["t1", "t2"] 7 0 0 0 0 9).2 = 2 ∧
    (runReserves (emptyTPState 2) ["t1", "t2"] 7 0 0 0 0 9).1.prepXacts.length = 2 := by
  refine ⟨⟨by decide, ?_⟩, ?_, ?_, ?_, ?_, ?_⟩
  · exact (c3_markAsPreparing_spec stA 7 _ 0 0 0 0 9 0 []).1 (by decide)
  · exact (c3_markAsPreparing_spec (emptyTPState 0) 7 "g" 0 0 0 0 9 0 []).2.1
      (by decide) (by decide)
  · exact (c3_markAsPreparing_spec stB 7 "b" 0 0 0 0 9 0 []).2.2.1
      (by decide) (by decide) ⟨entB, by decide, by decide⟩
  · exact (c3_markAsPreparing_spec stB 7 "c" 0 0 0 0 9 0 []).2.2.2.1
      (by decide) (by decide) (by decide) (by decide)
  · exact ((c3_markAsPreparing_spec stA 7 "g" 0 0 0 0 9 2 ["t1", "t2"]).2.2.2.2
      (by decide) (by decide) (by decide) (by decide)).1
  · exact ((c3_markAsPreparing_spec stA 7 "g" 0 0 0 0 9 2 ["t1", "t2"]).2.2.2.2
      (by decide) (by decide) (by decide) (by decide)).2

/-- C4: LockGXact scans only valid entries.  When no valid entry matches
the GID, it fails with notFound if raiseErrorIfNotFound and otherwise
reports "no such transaction" without error, leaving the registry
unchanged.  On the first valid match it fails with busy when the entry is
locked by another session, with permissionDenied when the requester is
neither the owner nor a superuser, and otherwise locks the entry for the
requester.  An entry that is not yet valid is invisible, and becomes
visible to the same Lookup exactly after MarkAsPrepared marks it valid. -/
theorem c4_lockGXact_spec (st : TPState) (g : String) (u : Nat) (s : Bool)
    (db : Nat) (ex : Bool) (bk : Nat) (l₁ l₂ : List GXactEnt) (e : GXactEnt) :
    ((∀ e' ∈ st.prepXacts, ¬(e'.valid = true ∧ e'.gid = g)) →
      lockGXact st g u s db ex bk true = (.error .notFound, st) ∧
      lockGXact st g u s db ex bk false = (.ok none, st)) ∧
    (st.prepXacts = l₁ ++ e :: l₂ →
     (∀ e' ∈ l₁, ¬(e'.valid = true ∧ e'.gid = g)) → e.gid = g →
      ((e.valid = true → e.locking_backend.isSome → ∀ raise,
         lockGXact st g u s db ex bk raise = (.error .busy, st)) ∧
       (e.valid = true → e.locking_backend = none → u ≠ e.owner → ∀ raise,
         lockGXact st g u false db ex bk raise = (.error .permissionDenied, st)) ∧
       (e.valid = true → e.locking_backend = none → (u = e.owner ∨ s = true) →
        (db = e.databaseId ∨ ex = true) → ∀ raise,
         lockGXact st g u s db ex bk raise =
           (.ok (some { st with prepXacts :=
              l₁ ++ { e with locking_backend := some bk } :: l₂ }),
            { st with prepXacts :=
              l₁ ++ { e with locking_backend := some bk } :: l₂ })) ∧
       (e.valid = false → (∀ e' ∈ l₂, ¬(e'.valid = true ∧ e'.gid = g)) →
         lockGXact st g u s db ex bk false = (.ok none, st) ∧
         (e.locking_backend = none → (u = e.owner ∨ s = true) →
          (db = e.databaseId ∨ ex = true) →
           lockGXact (markAsPrepared st l₁.length) g u s db ex bk false =
             (.ok (some { st with prepXacts :=
                l₁ ++ { e with valid := true, locking_backend := some bk } :: l₂ }),
              { st with prepXacts :=
                l₁ ++ { e with valid := true, locking_backend := some bk } :: l₂ }))))) := by
  constructor
  · intro h
    refine ⟨?_, ?_⟩ <;>
      rw [lockGXact, lockScan_no_match st.prepXacts g u s db ex bk h] <;> rfl
  · intro hsplit hpre hg
    refine ⟨?_, ?_, ?_, ?_⟩
    · intro hv hl raise
      rw [lockGXact, hsplit, lockScan_skip l₁ _ g u s db ex bk hpre,
        lockScan_found_busy l₂ e g u s db ex bk hv hg hl]
    · intro hv hl hu raise
      rw [lockGXact, hsplit, lockScan_skip l₁ _ g u false db ex bk hpre,
        lockScan_found_perm l₂ e g u db ex bk hv hg hl hu]
    · intro hv hl hu hdb raise
      rw [lockGXact, hsplit, lockScan_skip l₁ _ g u s db ex bk hpre,
        lockScan_found_ok l₂ e g u s db ex bk hv hg hl hu hdb]
    · intro hv hrest
      constructor
      · have hall : ∀ e' ∈ st.prepXacts, ¬(e'.valid = true ∧ e'.gid = g) := by
          rw [hsplit]
          intro e' he'
          rcases List.mem_append.mp he' with h | h
          · exact hpre e' h
          · rcases List.mem_cons.mp h with h | h
            · subst h
              intro hc
              rw [hv] at hc
              exact Bool.false_ne_true hc.1
            · exact hrest e' h
        rw [lockGXact, lockScan_no_match st.prepXacts g u s db ex bk hall]
        rfl
      · intro hl hu hdb
        have hmark : (markAsPrepared st l₁.length).prepXacts =
            l₁ ++ { e with valid := true } :: l₂ := by
          rw [markAsPrepared, hsplit, modifyAt_append_middle]
        rw [lockGXact, hmark, lockScan_skip l₁ _ g u s db ex bk hpre,
          lockScan_found_ok l₂ { e with valid := true } g u s db ex bk rfl hg hl hu hdb]
        rw [markAsPrepared, hsplit]

/-- An entry locked by another session, with its one-entry registry. -/
def entC : GXactEnt := { entA with gid := "c", locking_backend := some 2 }

def stC : TPState := { maxPreparedXacts := 2, freeCount := 1, prepXacts := [entC] }

theorem c4_lockGXact_spec_witness :
    lockGXact stA "zz" 1 false 7 false 4 true = (.error .notFound, stA) ∧
    lockGXact stA "zz" 1 false 7 false 4 false = (.ok none, stA) ∧
    lockGXact stC "c" 1 false 7 false 4 true = (.error .busy, stC) ∧
    lockGXact stA "a" 2 false 7 false 4 true = (.error .permissionDenied, stA) ∧
    lockGXact stA "a" 1 false 7 false 4 true =
      (.ok (some { stA with prepXacts := [] ++ { entA with locking_backend := some 4 } :: [] }), { stA with prepXacts := [] ++ { entA with locking_backend := some 4 } :: [] }) ∧
    lockGXact stB "b" 1 false 7 false 4 false = (.ok none, stB) ∧
    lockGXact (markAsPrepared stB 1) "b" 1 false 7 false 4 false =
      (.ok (some { stB with prepXacts := [entA] ++ { entB with valid := true, locking_backend := some 4 } :: [] }), { stB with prepXacts := [entA] ++ { entB with valid := true, locking_backend := some 4 } :: [] }) := by
  refine ⟨?_, ?_, ?_, ?_, ?_, ?_, ?_⟩
  · exact ((c4_lockGXact_spec stA "zz" 1 false 7 false 4 [] [] entA).1 (by decide)).1
  · exact ((c4_lockGXact_spec stA "zz" 1 false 7 false 4 [] [] entA).1 (by decide)).2
  · exact (((c4_lockGXact_spec stC "c" 1 false 7 false 4 [] [] entC).2 rfl
      (by decide) rfl).1 rfl rfl) true
  · exact (((c4_lockGXact_spec stA "a" 2 false 7 false 4 [] [] entA).2 rfl
      (by decide) rfl).2.1 rfl rfl (by decide)) true
  · exact (((c4_lockGXact_spec stA "a" 1 false 7 false 4 [] [] entA).2 rfl
      (by decide) rfl).2.2.1 rfl rfl (Or.inl rfl) (Or.inl rfl)) true
  · exact (((c4_lockGXact_spec stB "b" 1 false 7 false 4 [entA] [] entB).2 rfl
      (by decide) rfl).2.2.2 rfl (by decide)).1
  · exact (((c4_lockGXact_spec stB "b" 1 false 7 false 4 [entA] [] entB).2 rfl
      (by decide) rfl).2.2.2 rfl (by decide)).2 rfl (Or.inl rfl) (Or.inl rfl)

/-- C2: For a transaction whose entry was valid before the crash, the
durable header written by StartPrepare carries the entry's gid, owner,
database and preparation timestamp, and RecoverPreparedTransactions
(MarkAsPreparing with the header's stored metadata followed by
MarkAsPrepared) re-creates, in a fresh registry, an entry whose gid,
owner, database and preparation timestamp are identical to the pre-crash
entry's, and which is valid after the scan.  PrescanPreparedTransactions
runs first but touches only the status store and the next-xid counter
(its model does not take the registry at all), so it leaves the fresh
registry empty for Recover. -/
theorem c2_recover_reconstructs (e : GXactEnt) (subs : List Nat)
    (lsn bk c : Nat) (hgid : e.gid.length < GIDSIZE) (hc : 0 < c) :
    ∃ st', recoverRecords (emptyTPState c) [(startPrepareHeader e subs, lsn)] bk =
        .ok st' ∧
      st'.prepXacts.length = 1 ∧
      ∀ e' ∈ st'.prepXacts,
        e'.gid = e.gid ∧ e'.owner = e.owner ∧ e'.databaseId = e.databaseId ∧
        e'.prepared_at = e.prepared_at ∧ e'.valid = true := by
  have hok := markAsPreparing_ok (emptyTPState c) (startPrepareHeader e subs).xid
    (startPrepareHeader e subs).gid (startPrepareHeader e subs).prepared_at
    (startPrepareHeader e subs).owner (startPrepareHeader e subs).database lsn bk
    (by simpa [startPrepareHeader] using hgid)
    (by simp [emptyTPState]; omega)
    (by intro e' he'; simp [emptyTPState] at he')
    (by simp [emptyTPState]; omega)
  refine ⟨⟨c, c - 1, [⟨e.gid, e.owner, e.databaseId, e.prepared_at, e.xid, true, some bk, lsn⟩]⟩, ?_, rfl, ?_⟩
  · rw [recoverRecords, recoverOne, hok]
    rfl
  · intro e' he'
    simp only [List.mem_singleton] at he'
    subst he'
    exact ⟨rfl, rfl, rfl, rfl, rfl⟩

theorem c2_recover_reconstructs_witness :
    entA.gid.length < GIDSIZE ∧ 0 < 2 ∧
    ∃ st', recoverRecords (emptyTPState 2) [(startPrepareHeader entA [101, 102], 5)] 9 =
        .ok st' ∧
      st'.prepXacts.length = 1 ∧
      ∀ e' ∈ st'.prepXacts,
        e'.gid = entA.gid ∧ e'.owner = entA.owner ∧ e'.databaseId = entA.databaseId ∧
        e'.prepared_at = entA.prepared_at ∧ e'.valid = true :=
  ⟨by decide, by decide,
   c2_recover_reconstructs entA [101, 102] 5 9 2 (by decide) (by decide)⟩

/-- C6: PrescanPreparedTransactions, in the linear regime of normal xids
below 2^31 (where the circular TransactionIdPrecedes order coincides with
the numeric one): the returned value is the minimum over the xids of the
unresolved prepare records (those neither committed nor aborted in the
status store) — it is at most origNextXid and at most every unresolved
xid, and is either origNextXid (in particular when no such record exists)
or one of those xids; and the final next-xid counter has been advanced
past every subxact id of the unresolved records, moving only when a
subxact id did not already lie below it (the counter either stays at
origNextXid or equals some unresolved subxact id plus one, and never
decreases). -/
theorem c6_prescan_spec (records : List PrepRecHdr) (dc da : Nat → Bool)
    (orig : Nat)
    (ho : firstNormalXid ≤ orig) (ho' : orig < 2 ^ 31)
    (hx : ∀ h ∈ records, firstNormalXid ≤ h.xid ∧ h.xid < 2 ^ 31)
    (hs : ∀ h ∈ records, ∀ s ∈ h.subxids, firstNormalXid ≤ s ∧ s < 2 ^ 31) :
    ((prescan records dc da orig).1 ≤ orig ∧
     (∀ h ∈ unresolvedRecs records dc da, (prescan records dc da orig).1 ≤ h.xid) ∧
     ((prescan records dc da orig).1 = orig ∨
      ∃ h ∈ unresolvedRecs records dc da, (prescan records dc da orig).1 = h.xid)) ∧
    (orig ≤ (prescan records dc da orig).2 ∧
     (∀ h ∈ unresolvedRecs records dc da, ∀ s ∈ h.subxids,
        s < (prescan records dc da orig).2) ∧
     ((prescan records dc da orig).2 = orig ∨
      ∃ h ∈ unresolvedRecs records dc da, ∃ s ∈ h.subxids,
        (prescan records dc da orig).2 = s + 1)) := by
  have h := prescan_fold_spec records orig orig dc da ho ho'
    (by rw [firstNormalXid] at *; omega) (by omega) hx hs
  simp only [] at h
  rw [prescan]
  exact ⟨⟨h.1.1, h.1.2.1, h.1.2.2⟩, h.2.2.1⟩

theorem c6_prescan_spec_witness :
    (let recs : List PrepRecHdr :=
      [⟨50, 0, 0, 0, "g1", [60, 70]⟩, ⟨40, 0, 0, 0, "g2", [45]⟩,
       ⟨30, 0, 0, 0, "g3", [90]⟩]
     let dc : Nat → Bool := fun x => x == 30
     let da : Nat → Bool := fun _ => false
     (prescan recs dc da 55).1 ≤ 55 ∧
     (∀ h ∈ unresolvedRecs recs dc da, (prescan recs dc da 55).1 ≤ h.xid) ∧
     ((prescan recs dc da 55).1 = 55 ∨
      ∃ h ∈ unresolvedRecs recs dc da, (prescan recs dc da 55).1 = h.xid) ∧
     55 ≤ (prescan recs dc da 55).2 ∧
     (∀ h ∈ unresolvedRecs recs dc da, ∀ s ∈ h.subxids,
        s < (prescan recs dc da 55).2)) := by
  have h := c6_prescan_spec
    [⟨50, 0, 0, 0, "g1", [60, 70]⟩, ⟨40, 0, 0, 0, "g2", [45]⟩,
     ⟨30, 0, 0, 0, "g3", [90]⟩]
    (fun x => x == 30) (fun _ => false) 55
    (by decide) (by decide) (by decide) (by decide)
  exact ⟨h.1.1, h.1.2.1, h.1.2.2, h.2.1, h.2.2.1⟩

/-- Concrete state record used by the C5 witness. -/
def hdrW : DiskHdrIn :=
  { xid := 9, database := 8, prepared_at := 2 ^ 40 + 7, owner := 6,
    initfileinval := true, gid := List.replicate 200 65 }

theorem c5_state_record_roundtrip_witness :
    decodeStateRecord 5 6
      (encodeStateRecord hdrW [4, 5] [[1, 2, 3, 4, 5]] [] [[9, 9, 9, 9, 9, 9]]
        [⟨2, 3, [1, 2, 3]⟩]) =
    ({ magic := TWOPHASE_MAGIC,
       total_len := hdrSize +
         (sectionBytes [4, 5] [[1, 2, 3, 4, 5]] [] [[9, 9, 9, 9, 9, 9]]
           [⟨2, 3, [1, 2, 3]⟩]).length + 4,
       xid := hdrW.xid, database := hdrW.database,
       prepared_at := hdrW.prepared_at, owner := hdrW.owner,
       nsubxacts := 2, ncommitrels := 1, nabortrels := 0, ninvalmsgs := 1,
       initfileinval := hdrW.initfileinval, gid := hdrW.gid },
     [4, 5], [[1, 2, 3, 4, 5]], [], [[9, 9, 9, 9, 9, 9]],
     [⟨2, 3, [1, 2, 3]⟩]) :=
  c5_state_record_roundtrip hdrW [4, 5] [[1, 2, 3, 4, 5]] [] [[9, 9, 9, 9, 9, 9]]
    [⟨2, 3, [1, 2, 3]⟩] 5 6 (by decide) (by decide) (by decide) (by decide)
    (by decide) (by decide) (by decide) (by decide) (by decide) (by decide)
    (by decide) (by decide) (by decide) (by decide) (by decide)
